import Mathlib

/-!
# cluster-service: tag-driven deletion of AWS resources

A shallow embedding of `pkg/aws/rds.go` and `pkg/aws/client.go`.

* Go pointers are `Option`: `none` is the nil pointer.  Reading a field through a nil
  pointer is a run-time panic, which the embedding keeps as an explicit outcome.
* A Go function returning `(value, error)` returns a pair; `none` is the nil error.
* The provider client (`rdsiface.RDSAPI`) and the action engines are interfaces, so they
  are parameters: functions over an arbitrary state type.
* Every run carries the list of calls it issued, each with the response it got, in
  order: what a recording test double would observe.
* Logging has no effect on results and is left out.
-/

namespace ClusterService

/-! ## Values of the AWS SDK -/

/-- Go's `aws.StringValue`: the string behind a `*string`, the empty string for nil. -/
def StringValue : Option String → String
  | some v => v
  | none => ""

/-- Go's `aws.BoolValue`: the bool behind a `*bool`, false for nil. -/
def BoolValue : Option Bool → Bool
  | some v => v
  | none => false

/-- Type `rds.Tag`. -/
structure Tag where
  Key : Option String
  Value : Option String
deriving DecidableEq, Repr

/-- Type `rds.DBInstance`, with the fields the engine reads. -/
structure DBInstance where
  DBInstanceIdentifier : Option String
  DBInstanceArn : Option String
  DBClusterIdentifier : Option String
  DBInstanceStatus : Option String
  DeletionProtection : Option Bool
deriving DecidableEq, Repr

/-- Go's `error` values: an error raised by a collaborator, or an error wrapped with a
context message. -/
inductive Error where
  | raised (msg : String)
  | wrapped (cause : Error) (msg : String)
deriving DecidableEq, Repr

/-- Modelled from the spec: `errors.WrapLog` of `pkg/errors`, which is not among the
sources. It returns the error wrapped with context (and logs it); the result is never
the nil error. -/
def WrapLog (err : Error) (msg : String) : Error :=
  Error.wrapped err msg

/-- Type `rds.DescribeDBInstancesInput`; the engine leaves every field unset. -/
structure DescribeDBInstancesInput where
  Marker : Option String
deriving DecidableEq, Repr

/-- Type `rds.DescribeDBInstancesOutput`: one page of instances and the continuation
marker of the listing. -/
structure DescribeDBInstancesOutput where
  DBInstances : List (Option DBInstance)
  Marker : Option String
deriving DecidableEq, Repr

/-- Type `rds.ListTagsForResourceInput`. -/
structure ListTagsForResourceInput where
  ResourceName : Option String
deriving DecidableEq, Repr

/-- Type `rds.ListTagsForResourceOutput`. -/
structure ListTagsForResourceOutput where
  TagList : List (Option Tag)
deriving DecidableEq, Repr

/-- Type `rds.ModifyDBInstanceInput`, with the fields the engine sets. -/
structure ModifyDBInstanceInput where
  DBInstanceIdentifier : Option String
  DeletionProtection : Option Bool
deriving DecidableEq, Repr

/-- Type `rds.ModifyDBInstanceOutput`. -/
structure ModifyDBInstanceOutput where
  DBInstance : Option DBInstance
deriving DecidableEq, Repr

/-- Type `rds.DeleteDBInstanceInput`, with the fields the engine sets. -/
structure DeleteDBInstanceInput where
  DBInstanceIdentifier : Option String
  DeleteAutomatedBackups : Option Bool
  SkipFinalSnapshot : Option Bool
deriving DecidableEq, Repr

/-- Type `rds.DeleteDBInstanceOutput`. -/
structure DeleteDBInstanceOutput where
  DBInstance : Option DBInstance
deriving DecidableEq, Repr

/-- The four methods of `rdsiface.RDSAPI` the engine calls. Each takes the provider
state and an input and gives back Go's `(output, err)` pair and the next state. -/
structure RDSAPI (σ : Type) where
  DescribeDBInstances :
    σ → DescribeDBInstancesInput → (Option DescribeDBInstancesOutput × Option Error) × σ
  ListTagsForResource :
    σ → ListTagsForResourceInput → (Option ListTagsForResourceOutput × Option Error) × σ
  ModifyDBInstance :
    σ → ModifyDBInstanceInput → (Option ModifyDBInstanceOutput × Option Error) × σ
  DeleteDBInstance :
    σ → DeleteDBInstanceInput → (Option DeleteDBInstanceOutput × Option Error) × σ

/-- One provider call as a recording test double sees it: the input and the response. -/
inductive Call where
  | DescribeDBInstances (input : DescribeDBInstancesInput)
      (response : Option DescribeDBInstancesOutput × Option Error)
  | ListTagsForResource (input : ListTagsForResourceInput)
      (response : Option ListTagsForResourceOutput × Option Error)
  | ModifyDBInstance (input : ModifyDBInstanceInput)
      (response : Option ModifyDBInstanceOutput × Option Error)
  | DeleteDBInstance (input : DeleteDBInstanceInput)
      (response : Option DeleteDBInstanceOutput × Option Error)
deriving DecidableEq, Repr

/-- The mutating calls: `ModifyDBInstance` and `DeleteDBInstance`. -/
def Call.isMutating : Call → Bool
  | Call.ModifyDBInstance _ _ => true
  | Call.DeleteDBInstance _ _ => true
  | _ => false

/-- Recognises `ModifyDBInstance` calls. -/
def Call.isModify : Call → Bool
  | Call.ModifyDBInstance _ _ => true
  | _ => false

/-- Recognises `DeleteDBInstance` calls. -/
def Call.isDelete : Call → Bool
  | Call.DeleteDBInstance _ _ => true
  | _ => false

/-! ## Package `clusterservice` and package constants -/

/-- Modelled from the spec: the `Action` enum of `pkg/clusterservice`, which is not among
the sources; currently only `Delete`. -/
inductive Action where
  | Delete
deriving DecidableEq, Repr

/-- Modelled from the spec: the `ActionStatus` enum of `pkg/clusterservice`, which is not
among the sources. -/
inductive ActionStatus where
  | Empty
  | InProgress
  | DryRun
  | Skipped
  | Complete
deriving DecidableEq, Repr

/-- Modelled from the spec: the `ReportItem` record of `pkg/clusterservice`, which is not
among the sources. -/
structure ReportItem where
  ID : String
  Name : String
  Action : Action
  ActionStatus : ActionStatus
deriving DecidableEq, Repr

/-- Modelled from the spec: the `Report` record of `pkg/clusterservice`, which is not
among the sources: the ordered sequence of items. -/
structure Report where
  Items : List ReportItem
deriving DecidableEq, Repr

/-- Modelled from the spec: the package constants `tagKeyClusterId` (the fixed key of
the cluster-identity tag) and `statusDeleting` (the lifecycle status of an instance
under deletion). Their declarations are not among the sources, so their values are
parameters. -/
structure Constants where
  tagKeyClusterId : String
  statusDeleting : String
deriving DecidableEq, Repr

/-! ## Outcomes -/

/-- How a Go function call ends: with a nil-pointer panic or by returning. -/
inductive Outcome (α : Type) where
  | panic : Outcome α
  | returned (value : α) : Outcome α
deriving DecidableEq, Repr

/-- How one pass through a loop body ends inside a function returning `(value, error)`:
with a panic, with `return nil, err`, or by going on with a value. -/
inductive Flow (α : Type) where
  | panic : Flow α
  | fail (err : Error) : Flow α
  | next (value : α) : Flow α
deriving DecidableEq, Repr

/-- Applies a function to the value a flow goes on with. -/
def Flow.map {α β : Type} (f : α → β) : Flow α → Flow β
  | Flow.panic => Flow.panic
  | Flow.fail err => Flow.fail err
  | Flow.next value => Flow.next (f value)

/-- A finished run: its result, the state it left, and the calls it issued in order. -/
structure Exec (σ ε ρ : Type) where
  result : ρ
  state : σ
  trace : List ε

/-! ## `pkg/aws/rds.go` -/

/-- Function `findTag`: the first tag of the list whose key and value are the given ones,
nil when there is none. `tag.Key` on a nil entry panics. -/
def findTag (key value : String) : List (Option Tag) → Outcome (Option Tag)
  | [] => Outcome.returned none
  | none :: _ => Outcome.panic
  | some tag :: rest =>
    if key = StringValue tag.Key ∧ value = StringValue tag.Value then
      Outcome.returned (some tag)
    else
      findTag key value rest

/-- The loop over the extra tags (`for extraTagKey, extraTagVal := range tags`), in the
order the range yields the entries: `extraTagsMatch` stays true until one pair is not
found, which breaks the loop. -/
def extraTagsMatch (tagList : List (Option Tag)) : List (String × String) → Outcome Bool
  | [] => Outcome.returned true
  | (extraTagKey, extraTagVal) :: rest =>
    match findTag extraTagKey extraTagVal tagList with
    | Outcome.panic => Outcome.panic
    | Outcome.returned none => Outcome.returned false
    | Outcome.returned (some _) => extraTagsMatch tagList rest

/-- The body of the first loop of `DeleteResourcesForCluster` for one listed instance:
look its tags up, then check the cluster tag and the extra tags. It goes on with
the instance when it is to be deleted and with nothing when it is skipped. -/
def filterStep {σ : Type} (api : RDSAPI σ) (c : Constants) (clusterId : String)
    (tags : List (String × String)) (dbInstance : Option DBInstance) (s : σ) :
    Exec σ Call (Flow (Option DBInstance)) :=
  match dbInstance with
  | none => ⟨Flow.panic, s, []⟩
  | some db =>
    let tagListInput : ListTagsForResourceInput := ⟨db.DBInstanceArn⟩
    let response := api.ListTagsForResource s tagListInput
    let calls := [Call.ListTagsForResource tagListInput response.1]
    match response.1 with
    | (_, some err) =>
      ⟨Flow.fail (WrapLog err "failed to list tags for database cluster"), response.2, calls⟩
    | (none, none) => ⟨Flow.panic, response.2, calls⟩
    | (some tagListOutput, none) =>
      match findTag c.tagKeyClusterId clusterId tagListOutput.TagList with
      | Outcome.panic => ⟨Flow.panic, response.2, calls⟩
      | Outcome.returned none => ⟨Flow.next none, response.2, calls⟩
      | Outcome.returned (some _) =>
        match extraTagsMatch tagListOutput.TagList tags with
        | Outcome.panic => ⟨Flow.panic, response.2, calls⟩
        | Outcome.returned false => ⟨Flow.next none, response.2, calls⟩
        | Outcome.returned true => ⟨Flow.next (some db), response.2, calls⟩

/-- The first loop of `DeleteResourcesForCluster`: the instances to delete, in the order
of the listing. -/
def filterLoop {σ : Type} (api : RDSAPI σ) (c : Constants) (clusterId : String)
    (tags : List (String × String)) :
    List (Option DBInstance) → σ → Exec σ Call (Flow (List DBInstance))
  | [], s => ⟨Flow.next [], s, []⟩
  | dbInstance :: rest, s =>
    let step := filterStep api c clusterId tags dbInstance s
    match step.result with
    | Flow.panic => ⟨Flow.panic, step.state, step.trace⟩
    | Flow.fail err => ⟨Flow.fail err, step.state, step.trace⟩
    | Flow.next kept =>
      let later := filterLoop api c clusterId tags rest step.state
      ⟨later.result.map (fun databasesToDelete => kept.toList ++ databasesToDelete),
        later.state, step.trace ++ later.trace⟩

/-- The report item built for an instance, with the status it ends with. The slice holds
a pointer to the item, so the status assigned after the append is the one reported. -/
def reportItemFor (dbInstance : DBInstance) (status : ActionStatus) : ReportItem :=
  ⟨StringValue dbInstance.DBInstanceArn, StringValue dbInstance.DBClusterIdentifier,
    Action.Delete, status⟩

/-- The deletion-protection branch of the second loop: when the flag is set, clear it
with `ModifyDBInstance` and go on with `modifyOutput.DBInstance` as the new value of
the variable `dbInstance` (a pointer, possibly nil); otherwise keep the instance. -/
def removeProtection {σ : Type} (api : RDSAPI σ) (dbInstance : DBInstance) (s : σ) :
    Exec σ Call (Flow (Option DBInstance)) :=
  if BoolValue dbInstance.DeletionProtection then
    let modifyInput : ModifyDBInstanceInput := ⟨dbInstance.DBInstanceIdentifier, some false⟩
    let response := api.ModifyDBInstance s modifyInput
    let calls := [Call.ModifyDBInstance modifyInput response.1]
    match response.1 with
    | (_, some err) =>
      ⟨Flow.fail (WrapLog err "failed to remove instance protection on database"),
        response.2, calls⟩
    | (none, none) => ⟨Flow.panic, response.2, calls⟩
    | (some modifyOutput, none) => ⟨Flow.next modifyOutput.DBInstance, response.2, calls⟩
  else
    ⟨Flow.next (some dbInstance), s, []⟩

/-- The body of the second loop of `DeleteResourcesForCluster` for one instance to
delete: build its report item, then (unless dry run or already deleting) clear the
deletion protection and delete. It goes on with the item as finally reported. -/
def deleteStep {σ : Type} (api : RDSAPI σ) (c : Constants) (dryRun : Bool)
    (dbInstance : DBInstance) (s : σ) : Exec σ Call (Flow ReportItem) :=
  if dryRun then
    ⟨Flow.next (reportItemFor dbInstance ActionStatus.DryRun), s, []⟩
  else if StringValue dbInstance.DBInstanceStatus = c.statusDeleting then
    ⟨Flow.next (reportItemFor dbInstance ActionStatus.InProgress), s, []⟩
  else
    let cleared := removeProtection api dbInstance s
    match cleared.result with
    | Flow.panic => ⟨Flow.panic, cleared.state, cleared.trace⟩
    | Flow.fail err => ⟨Flow.fail err, cleared.state, cleared.trace⟩
    | Flow.next none => ⟨Flow.panic, cleared.state, cleared.trace⟩
    | Flow.next (some current) =>
      let deleteInput : DeleteDBInstanceInput :=
        ⟨current.DBInstanceIdentifier, some true, some true⟩
      let response := api.DeleteDBInstance cleared.state deleteInput
      let calls := cleared.trace ++ [Call.DeleteDBInstance deleteInput response.1]
      match response.1.2 with
      | some err => ⟨Flow.fail (WrapLog err "failed to delete rds instance"), response.2, calls⟩
      | none => ⟨Flow.next (reportItemFor dbInstance ActionStatus.InProgress), response.2, calls⟩

/-- The second loop of `DeleteResourcesForCluster`: the report items of the instances to
delete, in order. An error return drops the items built so far. -/
def deleteLoop {σ : Type} (api : RDSAPI σ) (c : Constants) (dryRun : Bool) :
    List DBInstance → σ → Exec σ Call (Flow (List ReportItem))
  | [], s => ⟨Flow.next [], s, []⟩
  | dbInstance :: rest, s =>
    let step := deleteStep api c dryRun dbInstance s
    match step.result with
    | Flow.panic => ⟨Flow.panic, step.state, step.trace⟩
    | Flow.fail err => ⟨Flow.fail err, step.state, step.trace⟩
    | Flow.next reportItem =>
      let later := deleteLoop api c dryRun rest step.state
      ⟨later.result.map (fun reportItems => reportItem :: reportItems),
        later.state, step.trace ++ later.trace⟩

/-- Type `RDSEngine` (without its logger). -/
structure RDSEngine (σ : Type) where
  rdsClient : RDSAPI σ

/-- Method `RDSEngine.GetName`. -/
def RDSEngine.GetName {σ : Type} (_r : RDSEngine σ) : String :=
  "AWS RDS Engine"

/-- Method `RDSEngine.DeleteResourcesForCluster`: list the instances, keep those tagged
for the cluster and with the extra tags, then report and delete them. `tags` holds the
entries of the Go map in the order its range yields them. The result is Go's
`(items, err)` pair; the nil slice is the empty list. -/
def RDSEngine.DeleteResourcesForCluster {σ : Type} (r : RDSEngine σ) (c : Constants)
    (clusterId : String) (tags : List (String × String)) (dryRun : Bool) (s : σ) :
    Exec σ Call (Outcome (List ReportItem × Option Error)) :=
  let clusterDescribeInput : DescribeDBInstancesInput := ⟨none⟩
  let response := r.rdsClient.DescribeDBInstances s clusterDescribeInput
  let calls := [Call.DescribeDBInstances clusterDescribeInput response.1]
  match response.1 with
  | (_, some err) =>
    ⟨Outcome.returned ([], some (WrapLog err "failed to describe database clusters")),
      response.2, calls⟩
  | (none, none) => ⟨Outcome.panic, response.2, calls⟩
  | (some clusterDescribeOutput, none) =>
    let filtered :=
      filterLoop r.rdsClient c clusterId tags clusterDescribeOutput.DBInstances response.2
    match filtered.result with
    | Flow.panic => ⟨Outcome.panic, filtered.state, calls ++ filtered.trace⟩
    | Flow.fail err => ⟨Outcome.returned ([], some err), filtered.state, calls ++ filtered.trace⟩
    | Flow.next databasesToDelete =>
      let deleted := deleteLoop r.rdsClient c dryRun databasesToDelete filtered.state
      match deleted.result with
      | Flow.panic => ⟨Outcome.panic, deleted.state, calls ++ filtered.trace ++ deleted.trace⟩
      | Flow.fail err =>
        ⟨Outcome.returned ([], some err), deleted.state,
          calls ++ filtered.trace ++ deleted.trace⟩
      | Flow.next reportItems =>
        ⟨Outcome.returned (reportItems, none), deleted.state,
          calls ++ filtered.trace ++ deleted.trace⟩

/-! ## `pkg/aws/client.go` -/

/-- Interface `ActionEngine`: a name and `DeleteResourcesForCluster`, which runs in the
state of the world and can panic or return Go's `(items, err)` pair. -/
structure ActionEngine (ω : Type) where
  GetName : String
  DeleteResourcesForCluster :
    String → List (String × String) → Bool → ω → Outcome (List ReportItem × Option Error) × ω

/-- One engine invocation as a recording test double sees it: the position of the engine
in `actionEngines`, the arguments it got and what it gave back. -/
structure Invocation where
  engine : Nat
  clusterId : String
  tags : List (String × String)
  dryRun : Bool
  response : Outcome (List ReportItem × Option Error)
deriving DecidableEq, Repr

/-- Type `Client` (without its logger). -/
structure Client (ω : Type) where
  actionEngines : List (ActionEngine ω)

/-- The loop of `Client.DeleteResourcesForCluster` from the engine at position `index`
on, with `items` the `report.Items` appended so far. -/
def engineLoop {ω : Type} (clusterId : String) (tags : List (String × String)) (dryRun : Bool) :
    Nat → List (ActionEngine ω) → List ReportItem → ω →
      Exec ω Invocation (Outcome (Option Report × Option Error))
  | _, [], items, w => ⟨Outcome.returned (some ⟨items⟩, none), w, []⟩
  | index, engine :: rest, items, w =>
    let response := engine.DeleteResourcesForCluster clusterId tags dryRun w
    let invocation : Invocation := ⟨index, clusterId, tags, dryRun, response.1⟩
    match response.1 with
    | Outcome.panic => ⟨Outcome.panic, response.2, [invocation]⟩
    | Outcome.returned (_, some err) =>
      ⟨Outcome.returned (none, some (WrapLog err "failed to run engine")), response.2,
        [invocation]⟩
    | Outcome.returned (reportItems, none) =>
      let later := engineLoop clusterId tags dryRun (index + 1) rest (items ++ reportItems)
        response.2
      ⟨later.result, later.state, invocation :: later.trace⟩

/-- Method `Client.DeleteResourcesForCluster`: run the engines in order and append their
items to one report; the first engine error ends the call. The result is Go's
`(report, err)` pair. -/
def Client.DeleteResourcesForCluster {ω : Type} (c : Client ω) (clusterId : String)
    (tags : List (String × String)) (dryRun : Bool) (w : ω) :
    Exec ω Invocation (Outcome (Option Report × Option Error)) :=
  engineLoop clusterId tags dryRun 0 c.actionEngines [] w

/-! ## A provider test double -/

/-- The state of the test double: the instances with their tags, and the resources for
which a tag lookup, a modification or a deletion is made to fail. -/
structure Fake where
  instances : List (DBInstance × List Tag)
  failTagsOf : Option String
  failModifyOf : Option String
  failDeleteOf : Option String
deriving DecidableEq, Repr

/-- The test double changes the instance with the given identifier. -/
def Fake.update (f : DBInstance → DBInstance) (id : Option String) :
    List (DBInstance × List Tag) → List (DBInstance × List Tag)
  | [] => []
  | (db, tl) :: rest =>
    if db.DBInstanceIdentifier = id then (f db, tl) :: rest
    else (db, tl) :: Fake.update f id rest

/-- The test double as a provider: it lists all instances in one page, looks tags up by
ARN, clears or sets the protection flag, and puts a deleted instance into the status
`deleting`. -/
def Fake.api : RDSAPI Fake where
  DescribeDBInstances := fun s _ =>
    ((some ⟨s.instances.map (fun p => some p.1), none⟩, none), s)
  ListTagsForResource := fun s input =>
    if input.ResourceName = s.failTagsOf then
      ((none, some (Error.raised "AccessDenied")), s)
    else
      match s.instances.find? (fun p => decide (p.1.DBInstanceArn = input.ResourceName)) with
      | none => ((none, some (Error.raised "DBInstanceNotFound")), s)
      | some p => ((some ⟨p.2.map some⟩, none), s)
  ModifyDBInstance := fun s input =>
    if input.DBInstanceIdentifier = s.failModifyOf then
      ((none, some (Error.raised "InvalidDBInstanceState")), s)
    else
      match s.instances.find?
        (fun p => decide (p.1.DBInstanceIdentifier = input.DBInstanceIdentifier)) with
      | none => ((none, some (Error.raised "DBInstanceNotFound")), s)
      | some p =>
        let changed : DBInstance :=
          ⟨p.1.DBInstanceIdentifier, p.1.DBInstanceArn, p.1.DBClusterIdentifier,
            p.1.DBInstanceStatus, input.DeletionProtection⟩
        ((some ⟨some changed⟩, none),
          ⟨Fake.update (fun _ => changed) input.DBInstanceIdentifier s.instances,
            s.failTagsOf, s.failModifyOf, s.failDeleteOf⟩)
  DeleteDBInstance := fun s input =>
    if input.DBInstanceIdentifier = s.failDeleteOf then
      ((none, some (Error.raised "InvalidDBInstanceState")), s)
    else
      match s.instances.find?
        (fun p => decide (p.1.DBInstanceIdentifier = input.DBInstanceIdentifier)) with
      | none => ((none, some (Error.raised "DBInstanceNotFound")), s)
      | some p =>
        let changed : DBInstance :=
          ⟨p.1.DBInstanceIdentifier, p.1.DBInstanceArn, p.1.DBClusterIdentifier,
            some "deleting", p.1.DeletionProtection⟩
        ((some ⟨some changed⟩, none),
          ⟨Fake.update (fun _ => changed) input.DBInstanceIdentifier s.instances,
            s.failTagsOf, s.failModifyOf, s.failDeleteOf⟩)

/-- Constants for the examples. -/
def exampleConstants : Constants :=
  ⟨"integreatly.org/clusterID", "deleting"⟩

/-- The cluster-identity tag of cluster `abc`. -/
def tagAbc : Tag := ⟨some "integreatly.org/clusterID", some "abc"⟩

/-- The extra tag of the spec's examples. -/
def tagCustodian : Tag := ⟨some "custodian", some "true"⟩

/-- The protected database of the spec's examples. -/
def dbOne : DBInstance :=
  ⟨some "db-one", some "arn:aws:rds:eu-west-1:1:db:db-one", some "cluster-one",
    some "available", some true⟩

/-- A second database, unprotected. -/
def dbTwo : DBInstance :=
  ⟨some "db-two", some "arn:aws:rds:eu-west-1:1:db:db-two", none, some "available", none⟩

/-- A third database, protected and already under deletion. -/
def dbThree : DBInstance :=
  ⟨some "db-three", some "arn:aws:rds:eu-west-1:1:db:db-three", none, some "deleting",
    some true⟩

/-- The provider of the spec's examples: one matching database with protection on. -/
def fakeOne : Fake :=
  ⟨[(dbOne, [tagAbc, tagCustodian])], none, none, none⟩

/-- A provider with three databases: two tagged for cluster `abc` with the extra tag (one
of them already deleting), one tagged for the cluster without the extra tag. -/
def fakeThree : Fake :=
  ⟨[(dbOne, [tagAbc, tagCustodian]), (dbTwo, [tagAbc]), (dbThree, [tagCustodian, tagAbc])],
    none, none, none⟩

/-- The engine over the test double. -/
def fakeEngine : RDSEngine Fake := ⟨Fake.api⟩

/-- The test double of the spec's example, made to refuse the modification. -/
def fakeOneLocked : Fake :=
  ⟨[(dbOne, [tagAbc, tagCustodian])], none, some "db-one", none⟩

/-- The test double with three databases, made to refuse the tag lookup of the second. -/
def fakeThreeDenied : Fake :=
  ⟨[(dbOne, [tagAbc, tagCustodian]), (dbTwo, [tagAbc]), (dbThree, [tagCustodian, tagAbc])],
    some "arn:aws:rds:eu-west-1:1:db:db-two", none, none⟩

/-- A test double with two databases to delete, made to refuse the deletion of the
first. -/
def fakeTwoStuck : Fake :=
  ⟨[(dbOne, [tagAbc, tagCustodian]), (dbTwo, [tagCustodian, tagAbc])],
    none, none, some "db-one"⟩

/-- An `RDSEngine` as an `ActionEngine` (`var _ ActionEngine = &RDSEngine{}`): the world
is the provider state. -/
def RDSEngine.toActionEngine {σ : Type} (r : RDSEngine σ) (c : Constants) : ActionEngine σ :=
  ⟨r.GetName, fun clusterId tags dryRun s =>
    ((r.DeleteResourcesForCluster c clusterId tags dryRun s).result,
      (r.DeleteResourcesForCluster c clusterId tags dryRun s).state)⟩

/-- Function `NewDefaultRDSEngine`; `rdsClient` stands for `rds.New(session)`. -/
def NewDefaultRDSEngine {σ : Type} (rdsClient : RDSAPI σ) : RDSEngine σ :=
  ⟨rdsClient⟩

/-- Function `NewDefaultClient`: a client with the RDS engine as its only engine. -/
def NewDefaultClient {σ : Type} (rdsClient : RDSAPI σ) (c : Constants) : Client σ :=
  ⟨[(NewDefaultRDSEngine rdsClient).toActionEngine c]⟩

/-! ## Notions used to state the properties -/

/-- The call came back without error and with a complete response: a listing or a tag
list without nil entries, a modification that carries the modified instance. -/
def Call.succeeded : Call → Bool
  | Call.DescribeDBInstances _ (some output, none) => output.DBInstances.all Option.isSome
  | Call.ListTagsForResource _ (some output, none) => output.TagList.all Option.isSome
  | Call.ModifyDBInstance _ (some output, none) => output.DBInstance.isSome
  | Call.DeleteDBInstance _ (_, none) => true
  | _ => false

/-- The error a call came back with, nil when it came back without one. -/
def Call.error : Call → Option Error
  | Call.DescribeDBInstances _ response => response.2
  | Call.ListTagsForResource _ response => response.2
  | Call.ModifyDBInstance _ response => response.2
  | Call.DeleteDBInstance _ response => response.2

/-- The tag list holds an entry with this key and this value. -/
def HasTag (key value : String) (tagList : List Tag) : Prop :=
  ∃ tag ∈ tagList, StringValue tag.Key = key ∧ StringValue tag.Value = value

instance instDecidableHasTag (key value : String) (tagList : List Tag) :
    Decidable (HasTag key value tagList) :=
  inferInstanceAs (Decidable (∃ tag ∈ tagList, StringValue tag.Key = key ∧
    StringValue tag.Value = value))

/-- The tag list passes both filters: it holds the cluster-identity tag with the cluster
id as value, and every pair of the extra tags. -/
def Selected (c : Constants) (clusterId : String) (tags : List (String × String))
    (tagList : List Tag) : Prop :=
  HasTag c.tagKeyClusterId clusterId tagList ∧ ∀ pair ∈ tags, HasTag pair.1 pair.2 tagList

instance instDecidableSelected (c : Constants) (clusterId : String)
    (tags : List (String × String)) (tagList : List Tag) :
    Decidable (Selected c clusterId tags tagList) :=
  inferInstanceAs (Decidable (HasTag c.tagKeyClusterId clusterId tagList ∧
    ∀ pair ∈ tags, HasTag pair.1 pair.2 tagList))

/-- The tag lookup of an instance as it shows in the trace when it returned this tag
list. -/
def lookupCall (dbInstance : DBInstance) (tagList : List Tag) : Call :=
  Call.ListTagsForResource ⟨dbInstance.DBInstanceArn⟩ (some ⟨tagList.map some⟩, none)

/-- The status an item is reported with when every call succeeds. -/
def finalStatus (dryRun : Bool) : ActionStatus :=
  if dryRun then ActionStatus.DryRun else ActionStatus.InProgress

/-- The instances the engine holds in `databasesToDelete` when it enters the second
loop; empty when the run ends before that. -/
def RDSEngine.databasesToDelete {σ : Type} (r : RDSEngine σ) (c : Constants)
    (clusterId : String) (tags : List (String × String)) (s : σ) : List DBInstance :=
  match (r.rdsClient.DescribeDBInstances s ⟨none⟩).1 with
  | (some clusterDescribeOutput, none) =>
    match (filterLoop r.rdsClient c clusterId tags clusterDescribeOutput.DBInstances
        (r.rdsClient.DescribeDBInstances s ⟨none⟩).2).result with
    | Flow.next databasesToDelete => databasesToDelete
    | _ => []
  | _ => []

/-- The run of the engine splits into the calls of its first phase (`reads`) and the
passes through the body of its second loop (`steps`): one pass for each of the
first instances of `databasesToDelete`, in order, the pass at position `i` being a run of
`deleteStep` on the instance at position `i`. The calls of the first phase are not
mutating. When the engine returns items, every instance was processed and the items are
what the passes went on with. -/
def RunsSteps {σ : Type} (r : RDSEngine σ) (c : Constants) (clusterId : String)
    (tags : List (String × String)) (dryRun : Bool) (s : σ) (reads : List Call)
    (steps : List (Exec σ Call (Flow ReportItem))) : Prop :=
  (r.DeleteResourcesForCluster c clusterId tags dryRun s).trace =
    reads ++ (steps.map (fun step => step.trace)).flatten ∧
  (∀ call ∈ reads, call.isMutating = false) ∧
  steps.length ≤ (r.databasesToDelete c clusterId tags s).length ∧
  (∀ (i : Nat) db step, (r.databasesToDelete c clusterId tags s)[i]? = some db →
    steps[i]? = some step → ∃ before, step = deleteStep r.rdsClient c dryRun db before) ∧
  (∀ items, (r.DeleteResourcesForCluster c clusterId tags dryRun s).result =
      Outcome.returned (items, none) →
    steps.length = (r.databasesToDelete c clusterId tags s).length ∧
    steps.map (fun step => step.result) = items.map Flow.next)

/-- Every engine of the list, started in the state its predecessor left, returns without
error: `returned` holds the item sequences they return, in order, and `final` is the state
the last one leaves. -/
def ReturnWithoutError {ω : Type} (clusterId : String) (tags : List (String × String))
    (dryRun : Bool) : List (ActionEngine ω) → ω → List (List ReportItem) → ω → Prop
  | [], w, returned, final => returned = [] ∧ final = w
  | engine :: rest, w, returned, final =>
    ∃ items next later,
      engine.DeleteResourcesForCluster clusterId tags dryRun w =
        (Outcome.returned (items, none), next) ∧
      returned = items :: later ∧
      ReturnWithoutError clusterId tags dryRun rest next later final

/-- An engine for the examples: it counts its invocations in the state and returns the
given pair. -/
def countingEngine (name : String) (items : List ReportItem) (err : Option Error) :
    ActionEngine Nat :=
  ⟨name, fun _ _ _ count => (Outcome.returned (items, err), count + 1)⟩

/-- An item for the examples. -/
def itemA : ReportItem := ⟨"arn:a", "a", Action.Delete, ActionStatus.InProgress⟩

/-- A second item for the examples. -/
def itemB : ReportItem := ⟨"arn:b", "b", Action.Delete, ActionStatus.InProgress⟩

/-- A client whose second engine of three returns items together with an error. -/
def clientFailingSecond : Client Nat :=
  ⟨[countingEngine "first" [itemA] none,
    countingEngine "second" [itemB] (some (Error.raised "boom")),
    countingEngine "third" [itemB] none]⟩

/-- A client whose three engines all return without error; the second returns nothing
and the third repeats an item of the first. -/
def clientAllFine : Client Nat :=
  ⟨[countingEngine "first" [itemA, itemB] none,
    countingEngine "second" [] none,
    countingEngine "third" [itemA] none]⟩

/-- A stateless test double that answers each call from a fixed function. -/
structure Scripted where
  describe : DescribeDBInstancesInput → Option DescribeDBInstancesOutput × Option Error
  listTags : ListTagsForResourceInput → Option ListTagsForResourceOutput × Option Error
  modify : ModifyDBInstanceInput → Option ModifyDBInstanceOutput × Option Error
  delete : DeleteDBInstanceInput → Option DeleteDBInstanceOutput × Option Error

/-- The stateless test double as a provider. -/
def Scripted.api (p : Scripted) : RDSAPI Unit where
  DescribeDBInstances := fun s input => (p.describe input, s)
  ListTagsForResource := fun s input => (p.listTags input, s)
  ModifyDBInstance := fun s input => (p.modify input, s)
  DeleteDBInstance := fun s input => (p.delete input, s)

/-- The listing and the tag lookup are observations: they leave the provider state as it
is. -/
def ReadsObserve {σ : Type} (api : RDSAPI σ) : Prop :=
  (∀ s input, (api.DescribeDBInstances s input).2 = s) ∧
  (∀ s input, (api.ListTagsForResource s input).2 = s)

/-- A test double with one database to delete that belongs to no DB cluster. -/
def fakeStandalone : Fake :=
  ⟨[(dbTwo, [tagAbc, tagCustodian])], none, none, none⟩

/-- A provider whose `ModifyDBInstance` returns an instance with another identifier
than the one it was asked to modify. -/
def strayScript : Scripted :=
  ⟨fun _ => (some ⟨[some dbOne], none⟩, none),
    fun _ => (some ⟨[some tagAbc, some tagCustodian]⟩, none),
    fun _ => (some ⟨some ⟨some "db-stray", none, none, some "available", some false⟩⟩, none),
    fun _ => (some ⟨none⟩, none)⟩

/-- The modification, when it returned an instance, returned one with the identifier it
was asked to modify. -/
def Call.echoes : Call → Bool
  | Call.ModifyDBInstance input (some ⟨some modified⟩, _) =>
    decide (modified.DBInstanceIdentifier = input.DBInstanceIdentifier)
  | _ => true

/-- A test double with two databases to delete: the first is already deleting, the
deletion of the second is refused. -/
def fakeDeletingThenStuck : Fake :=
  ⟨[(dbThree, [tagCustodian, tagAbc]), (dbOne, [tagAbc, tagCustodian])],
    none, none, some "db-one"⟩

/-! # Properties -/

/-! ## Tag matching (`findTag`) -/

theorem all_isSome_eq_map_some {α : Type} (l : List (Option α))
    (h : l.all Option.isSome = true) : ∃ values : List α, l = values.map some := by
  induction l with
  | nil => exact ⟨[], rfl⟩
  | cons entry rest ih =>
    simp only [List.all_cons, Bool.and_eq_true] at h
    obtain ⟨values, hv⟩ := ih h.2
    cases entry with
    | none => simp at h
    | some v => exact ⟨v :: values, by simp [hv]⟩

theorem findTag_map_some (key value : String) (tagList : List Tag) :
    findTag key value (tagList.map some) = Outcome.returned
      (tagList.find? (fun tag => decide (key = StringValue tag.Key ∧
        value = StringValue tag.Value))) := by
  induction tagList with
  | nil => rfl
  | cons tag rest ih =>
    by_cases hm : key = StringValue tag.Key ∧ value = StringValue tag.Value
    · simp only [List.map_cons, findTag, hm, and_self, if_true, List.find?_cons, decide_True]
    · simp only [List.map_cons, findTag, hm, if_false, List.find?_cons, decide_False, ih]

theorem find_isSome_iff_hasTag (key value : String) (tagList : List Tag) :
    (tagList.find? (fun tag => decide (key = StringValue tag.Key ∧
        value = StringValue tag.Value))).isSome = true ↔ HasTag key value tagList := by
  rw [List.find?_isSome]
  unfold HasTag
  constructor
  · rintro ⟨tag, hin, hd⟩
    have := of_decide_eq_true hd
    exact ⟨tag, hin, this.1.symm, this.2.symm⟩
  · rintro ⟨tag, hin, hk, hv⟩
    exact ⟨tag, hin, decide_eq_true ⟨hk.symm, hv.symm⟩⟩

theorem findTag_map_some_nil_iff (key value : String) (tagList : List Tag) :
    findTag key value (tagList.map some) = Outcome.returned none ↔ ¬ HasTag key value tagList := by
  rw [findTag_map_some, ← find_isSome_iff_hasTag]
  cases tagList.find? (fun tag => decide (key = StringValue tag.Key ∧
        value = StringValue tag.Value)) <;> simp

theorem extraTagsMatch_map_some (tagList : List Tag) (tags : List (String × String)) :
    extraTagsMatch (tagList.map some) tags =
      Outcome.returned (decide (∀ pair ∈ tags, HasTag pair.1 pair.2 tagList)) := by
  induction tags with
  | nil => simp [extraTagsMatch]
  | cons pair rest ih =>
    obtain ⟨k, v⟩ := pair
    have hiff := find_isSome_iff_hasTag k v tagList
    simp only [extraTagsMatch, findTag_map_some]
    cases hf : tagList.find? (fun tag => decide (k = StringValue tag.Key ∧
        v = StringValue tag.Value)) with
    | none =>
      rw [hf] at hiff
      have hno : ¬ HasTag k v tagList := fun h => by simpa using hiff.mpr h
      simp [hno]
    | some t =>
      rw [hf] at hiff
      have hyes : HasTag k v tagList := hiff.mp rfl
      simp [ih, hyes]

theorem filterStep_trace {σ : Type} (api : RDSAPI σ) (c : Constants) (clusterId : String)
    (tags : List (String × String)) (db : DBInstance) (s : σ) :
    (filterStep api c clusterId tags (some db) s).trace =
      [Call.ListTagsForResource ⟨db.DBInstanceArn⟩
        (api.ListTagsForResource s ⟨db.DBInstanceArn⟩).1] ∧
    (filterStep api c clusterId tags (some db) s).state =
      (api.ListTagsForResource s ⟨db.DBInstanceArn⟩).2 := by
  unfold filterStep
  simp only
  split
  · exact ⟨rfl, rfl⟩
  · exact ⟨rfl, rfl⟩
  · split
    · exact ⟨rfl, rfl⟩
    · exact ⟨rfl, rfl⟩
    · split <;> exact ⟨rfl, rfl⟩

theorem filterStep_of_lookup {σ : Type} (api : RDSAPI σ) (c : Constants) (clusterId : String)
    (tags : List (String × String)) (db : DBInstance) (s : σ) (tagList : List Tag)
    (h : (api.ListTagsForResource s ⟨db.DBInstanceArn⟩).1 = (some ⟨tagList.map some⟩, none)) :
    (filterStep api c clusterId tags (some db) s).result =
      Flow.next (if Selected c clusterId tags tagList then some db else none) := by
  unfold filterStep
  simp only [h, extraTagsMatch_map_some, findTag_map_some]
  have hiff := find_isSome_iff_hasTag c.tagKeyClusterId clusterId tagList
  unfold Selected
  cases hf : tagList.find? (fun tag => decide (c.tagKeyClusterId = StringValue tag.Key ∧
        clusterId = StringValue tag.Value)) with
  | none =>
    rw [hf] at hiff
    have hno : ¬ HasTag c.tagKeyClusterId clusterId tagList := fun h => by simpa using hiff.mpr h
    simp [hno]
  | some t =>
    rw [hf] at hiff
    have hyes : HasTag c.tagKeyClusterId clusterId tagList := hiff.mp rfl
    by_cases hall : ∀ pair ∈ tags, HasTag pair.1 pair.2 tagList
    · rw [decide_eq_true hall, if_pos ⟨hyes, hall⟩]
    · rw [decide_eq_false hall, if_neg (fun h => hall h.2)]

theorem filterLoop_cons_next {σ : Type} (api : RDSAPI σ) (c : Constants) (clusterId : String)
    (tags : List (String × String)) (dbInstance : Option DBInstance)
    (rest : List (Option DBInstance)) (s : σ) (kept : Option DBInstance)
    (h : (filterStep api c clusterId tags dbInstance s).result = Flow.next kept) :
    filterLoop api c clusterId tags (dbInstance :: rest) s =
      ⟨(filterLoop api c clusterId tags rest
          (filterStep api c clusterId tags dbInstance s).state).result.map
          (fun databasesToDelete => kept.toList ++ databasesToDelete),
        (filterLoop api c clusterId tags rest
          (filterStep api c clusterId tags dbInstance s).state).state,
        (filterStep api c clusterId tags dbInstance s).trace ++
          (filterLoop api c clusterId tags rest
            (filterStep api c clusterId tags dbInstance s).state).trace⟩ := by
  rw [filterLoop]
  simp only [h]

theorem filterLoop_cons_trace {σ : Type} (api : RDSAPI σ) (c : Constants) (clusterId : String)
    (tags : List (String × String)) (dbInstance : Option DBInstance)
    (rest : List (Option DBInstance)) (s : σ) :
    ∃ more, (filterLoop api c clusterId tags (dbInstance :: rest) s).trace =
      (filterStep api c clusterId tags dbInstance s).trace ++ more := by
  rw [filterLoop]
  simp only
  split
  · exact ⟨[], by simp⟩
  · exact ⟨[], by simp⟩
  · exact ⟨_, rfl⟩

theorem filterLoop_of_succeeded {σ : Type} (api : RDSAPI σ) (c : Constants)
    (clusterId : String) (tags : List (String × String)) (dbs : List DBInstance) (s : σ)
    (hok : ∀ call ∈ (filterLoop api c clusterId tags (dbs.map some) s).trace,
      call.succeeded = true) :
    ∃ tagLists : List (List Tag), tagLists.length = dbs.length ∧
      (filterLoop api c clusterId tags (dbs.map some) s).result =
        Flow.next (((dbs.zip tagLists).filter
          (fun p => decide (Selected c clusterId tags p.2))).map Prod.fst) ∧
      (filterLoop api c clusterId tags (dbs.map some) s).trace =
        List.zipWith lookupCall dbs tagLists := by
  induction dbs generalizing s with
  | nil => exact ⟨[], rfl, rfl, rfl⟩
  | cons db rest ih =>
    obtain ⟨htrace, hstate⟩ := filterStep_trace api c clusterId tags db s
    obtain ⟨more, hmore⟩ := filterLoop_cons_trace api c clusterId tags (some db)
      (rest.map some) s
    have hfirst := hok (Call.ListTagsForResource ⟨db.DBInstanceArn⟩
      (api.ListTagsForResource s ⟨db.DBInstanceArn⟩).1) (by
        rw [List.map_cons, hmore, htrace]; simp)
    obtain ⟨tagList, hresp⟩ : ∃ tagList : List Tag,
        (api.ListTagsForResource s ⟨db.DBInstanceArn⟩).1 =
          (some ⟨tagList.map some⟩, none) := by
      rcases hr : (api.ListTagsForResource s ⟨db.DBInstanceArn⟩).1 with ⟨output, err⟩
      rw [hr] at hfirst
      cases output with
      | none => cases err <;> simp [Call.succeeded] at hfirst
      | some out =>
        cases err with
        | some e => simp [Call.succeeded] at hfirst
        | none =>
          simp only [Call.succeeded] at hfirst
          obtain ⟨tagList, htl⟩ := all_isSome_eq_map_some out.TagList hfirst
          exact ⟨tagList, by rw [← htl]⟩
    have hres := filterStep_of_lookup api c clusterId tags db s tagList hresp
    have hcons := filterLoop_cons_next api c clusterId tags (some db) (rest.map some) s _ hres
    rw [List.map_cons] at hok ⊢
    rw [hcons] at hok ⊢
    simp only at hok ⊢
    obtain ⟨tagLists, hlen, hr, ht⟩ := ih _ (fun call hcall =>
      hok call (List.mem_append_right _ hcall))
    refine ⟨tagList :: tagLists, by simp [hlen], ?_, ?_⟩
    · rw [hr]
      simp only [Flow.map, List.zip_cons_cons, List.filter_cons]
      by_cases hsel : Selected c clusterId tags tagList
      · simp [hsel]
      · simp [hsel]
    · rw [ht, htrace, hresp]
      rfl

/-! ## The delete loop -/

theorem deleteLoop_cons_next {σ : Type} (api : RDSAPI σ) (c : Constants) (dryRun : Bool)
    (dbInstance : DBInstance) (rest : List DBInstance) (s : σ) (reportItem : ReportItem)
    (h : (deleteStep api c dryRun dbInstance s).result = Flow.next reportItem) :
    deleteLoop api c dryRun (dbInstance :: rest) s =
      ⟨(deleteLoop api c dryRun rest (deleteStep api c dryRun dbInstance s).state).result.map
          (fun reportItems => reportItem :: reportItems),
        (deleteLoop api c dryRun rest (deleteStep api c dryRun dbInstance s).state).state,
        (deleteStep api c dryRun dbInstance s).trace ++
          (deleteLoop api c dryRun rest (deleteStep api c dryRun dbInstance s).state).trace⟩ := by
  rw [deleteLoop]
  simp only [h]

theorem deleteLoop_cons_trace {σ : Type} (api : RDSAPI σ) (c : Constants) (dryRun : Bool)
    (dbInstance : DBInstance) (rest : List DBInstance) (s : σ) :
    ∃ more, (deleteLoop api c dryRun (dbInstance :: rest) s).trace =
      (deleteStep api c dryRun dbInstance s).trace ++ more := by
  rw [deleteLoop]
  simp only
  split
  · exact ⟨[], by simp⟩
  · exact ⟨[], by simp⟩
  · exact ⟨_, rfl⟩

theorem deleteStep_dryRun {σ : Type} (api : RDSAPI σ) (c : Constants) (db : DBInstance)
    (s : σ) :
    deleteStep api c true db s = ⟨Flow.next (reportItemFor db ActionStatus.DryRun), s, []⟩ := by
  simp [deleteStep]

theorem deleteStep_deleting {σ : Type} (api : RDSAPI σ) (c : Constants) (db : DBInstance)
    (s : σ) (hdel : StringValue db.DBInstanceStatus = c.statusDeleting) :
    deleteStep api c false db s =
      ⟨Flow.next (reportItemFor db ActionStatus.InProgress), s, []⟩ := by
  simp [deleteStep, hdel]

theorem deleteStep_live {σ : Type} (api : RDSAPI σ) (c : Constants) (db : DBInstance)
    (s : σ) (hdel : StringValue db.DBInstanceStatus ≠ c.statusDeleting) :
    deleteStep api c false db s =
      match (removeProtection api db s).result with
      | Flow.panic =>
        ⟨Flow.panic, (removeProtection api db s).state, (removeProtection api db s).trace⟩
      | Flow.fail err =>
        ⟨Flow.fail err, (removeProtection api db s).state, (removeProtection api db s).trace⟩
      | Flow.next none =>
        ⟨Flow.panic, (removeProtection api db s).state, (removeProtection api db s).trace⟩
      | Flow.next (some current) =>
        ⟨match (api.DeleteDBInstance (removeProtection api db s).state
            ⟨current.DBInstanceIdentifier, some true, some true⟩).1.2 with
          | some err => Flow.fail (WrapLog err "failed to delete rds instance")
          | none => Flow.next (reportItemFor db ActionStatus.InProgress),
          (api.DeleteDBInstance (removeProtection api db s).state
            ⟨current.DBInstanceIdentifier, some true, some true⟩).2,
          (removeProtection api db s).trace ++
            [Call.DeleteDBInstance ⟨current.DBInstanceIdentifier, some true, some true⟩
              (api.DeleteDBInstance (removeProtection api db s).state
                ⟨current.DBInstanceIdentifier, some true, some true⟩).1]⟩ := by
  unfold deleteStep
  simp only [Bool.false_eq_true, if_false, hdel]
  split
  · rfl
  · rfl
  · rfl
  · split <;> rfl

theorem removeProtection_unprotected {σ : Type} (api : RDSAPI σ) (db : DBInstance) (s : σ)
    (hprot : BoolValue db.DeletionProtection = false) :
    removeProtection api db s = ⟨Flow.next (some db), s, []⟩ := by
  simp [removeProtection, hprot]

theorem removeProtection_protected {σ : Type} (api : RDSAPI σ) (db : DBInstance) (s : σ)
    (hprot : BoolValue db.DeletionProtection = true) :
    removeProtection api db s =
      ⟨match (api.ModifyDBInstance s ⟨db.DBInstanceIdentifier, some false⟩).1 with
        | (_, some err) =>
          Flow.fail (WrapLog err "failed to remove instance protection on database")
        | (none, none) => Flow.panic
        | (some modifyOutput, none) => Flow.next modifyOutput.DBInstance,
        (api.ModifyDBInstance s ⟨db.DBInstanceIdentifier, some false⟩).2,
        [Call.ModifyDBInstance ⟨db.DBInstanceIdentifier, some false⟩
          (api.ModifyDBInstance s ⟨db.DBInstanceIdentifier, some false⟩).1]⟩ := by
  unfold removeProtection
  simp only [hprot, if_true]
  split <;> rfl

theorem removeProtection_of_succeeded {σ : Type} (api : RDSAPI σ) (db : DBInstance) (s : σ)
    (hok : ∀ call ∈ (removeProtection api db s).trace, call.succeeded = true) :
    ∃ current, (removeProtection api db s).result = Flow.next (some current) := by
  cases hprot : BoolValue db.DeletionProtection with
  | false => exact ⟨db, by rw [removeProtection_unprotected api db s hprot]⟩
  | true =>
    rw [removeProtection_protected api db s hprot] at hok ⊢
    simp only [List.mem_singleton, forall_eq] at hok ⊢
    generalize (api.ModifyDBInstance s ⟨db.DBInstanceIdentifier, some false⟩).1 = resp
      at hok ⊢
    rcases resp with ⟨output, err⟩
    cases err with
    | some e => simp [Call.succeeded] at hok
    | none =>
      cases output with
      | none => simp [Call.succeeded] at hok
      | some out =>
        rcases out with ⟨inst⟩
        cases inst with
        | none => simp [Call.succeeded] at hok
        | some current => exact ⟨current, rfl⟩

theorem deleteStep_of_succeeded {σ : Type} (api : RDSAPI σ) (c : Constants) (dryRun : Bool)
    (db : DBInstance) (s : σ)
    (hok : ∀ call ∈ (deleteStep api c dryRun db s).trace, call.succeeded = true) :
    (deleteStep api c dryRun db s).result = Flow.next (reportItemFor db (finalStatus dryRun)) := by
  cases dryRun with
  | true => rw [deleteStep_dryRun]; rfl
  | false =>
    by_cases hdel : StringValue db.DBInstanceStatus = c.statusDeleting
    · rw [deleteStep_deleting api c db s hdel]; rfl
    · rw [deleteStep_live api c db s hdel] at hok ⊢
      have hclear : ∀ call ∈ (removeProtection api db s).trace, call.succeeded = true := by
        intro call hcall
        apply hok
        split
        · exact hcall
        · exact hcall
        · exact hcall
        · exact List.mem_append_left _ hcall
      obtain ⟨current, hcur⟩ := removeProtection_of_succeeded api db s hclear
      rw [hcur] at hok ⊢
      simp only at hok ⊢
      have hdelete := hok _ (List.mem_append_right _ (List.mem_singleton_self _))
      generalize (api.DeleteDBInstance (removeProtection api db s).state
        ⟨current.DBInstanceIdentifier, some true, some true⟩).1 = resp at hdelete ⊢
      rcases resp with ⟨dout, derr⟩
      cases derr with
      | some e => simp [Call.succeeded] at hdelete
      | none => rfl

theorem deleteLoop_of_succeeded {σ : Type} (api : RDSAPI σ) (c : Constants) (dryRun : Bool)
    (dbs : List DBInstance) (s : σ)
    (hok : ∀ call ∈ (deleteLoop api c dryRun dbs s).trace, call.succeeded = true) :
    (deleteLoop api c dryRun dbs s).result =
      Flow.next (dbs.map (fun db => reportItemFor db (finalStatus dryRun))) := by
  induction dbs generalizing s with
  | nil => rfl
  | cons db rest ih =>
    obtain ⟨more, hmore⟩ := deleteLoop_cons_trace api c dryRun db rest s
    have hstep := deleteStep_of_succeeded api c dryRun db s (fun call hcall =>
      hok call (by rw [hmore]; exact List.mem_append_left _ hcall))
    rw [deleteLoop_cons_next api c dryRun db rest s _ hstep] at hok ⊢
    simp only at hok ⊢
    rw [ih _ (fun call hcall => hok call (List.mem_append_right _ hcall))]
    rfl

/-! ## The engine as a whole -/

theorem engine_trace_head {σ : Type} (r : RDSEngine σ) (c : Constants) (clusterId : String)
    (tags : List (String × String)) (dryRun : Bool) (s : σ) :
    ∃ more, (r.DeleteResourcesForCluster c clusterId tags dryRun s).trace =
      Call.DescribeDBInstances ⟨none⟩ (r.rdsClient.DescribeDBInstances s ⟨none⟩).1 :: more := by
  unfold RDSEngine.DeleteResourcesForCluster
  simp only
  split
  · exact ⟨[], rfl⟩
  · exact ⟨[], rfl⟩
  · split
    · exact ⟨_, rfl⟩
    · exact ⟨_, rfl⟩
    · split <;> exact ⟨_, rfl⟩

theorem engine_listed {σ : Type} (r : RDSEngine σ) (c : Constants) (clusterId : String)
    (tags : List (String × String)) (dryRun : Bool) (s : σ)
    (output : DescribeDBInstancesOutput)
    (h : (r.rdsClient.DescribeDBInstances s ⟨none⟩).1 = (some output, none)) :
    r.DeleteResourcesForCluster c clusterId tags dryRun s =
      match (filterLoop r.rdsClient c clusterId tags output.DBInstances
          (r.rdsClient.DescribeDBInstances s ⟨none⟩).2).result with
      | Flow.panic =>
        ⟨Outcome.panic,
          (filterLoop r.rdsClient c clusterId tags output.DBInstances
            (r.rdsClient.DescribeDBInstances s ⟨none⟩).2).state,
          Call.DescribeDBInstances ⟨none⟩ (some output, none) ::
            (filterLoop r.rdsClient c clusterId tags output.DBInstances
              (r.rdsClient.DescribeDBInstances s ⟨none⟩).2).trace⟩
      | Flow.fail err =>
        ⟨Outcome.returned ([], some err),
          (filterLoop r.rdsClient c clusterId tags output.DBInstances
            (r.rdsClient.DescribeDBInstances s ⟨none⟩).2).state,
          Call.DescribeDBInstances ⟨none⟩ (some output, none) ::
            (filterLoop r.rdsClient c clusterId tags output.DBInstances
              (r.rdsClient.DescribeDBInstances s ⟨none⟩).2).trace⟩
      | Flow.next databasesToDelete =>
        ⟨match (deleteLoop r.rdsClient c dryRun databasesToDelete
            (filterLoop r.rdsClient c clusterId tags output.DBInstances
              (r.rdsClient.DescribeDBInstances s ⟨none⟩).2).state).result with
          | Flow.panic => Outcome.panic
          | Flow.fail err => Outcome.returned ([], some err)
          | Flow.next reportItems => Outcome.returned (reportItems, none),
          (deleteLoop r.rdsClient c dryRun databasesToDelete
            (filterLoop r.rdsClient c clusterId tags output.DBInstances
              (r.rdsClient.DescribeDBInstances s ⟨none⟩).2).state).state,
          Call.DescribeDBInstances ⟨none⟩ (some output, none) ::
            ((filterLoop r.rdsClient c clusterId tags output.DBInstances
              (r.rdsClient.DescribeDBInstances s ⟨none⟩).2).trace ++
            (deleteLoop r.rdsClient c dryRun databasesToDelete
              (filterLoop r.rdsClient c clusterId tags output.DBInstances
                (r.rdsClient.DescribeDBInstances s ⟨none⟩).2).state).trace)⟩ := by
  unfold RDSEngine.DeleteResourcesForCluster
  simp only [h]
  split
  · rfl
  · rfl
  · split <;> simp

/-! ## The passes of the second loop -/

theorem deleteLoop_cons_panic {σ : Type} (api : RDSAPI σ) (c : Constants) (dryRun : Bool)
    (dbInstance : DBInstance) (rest : List DBInstance) (s : σ)
    (h : (deleteStep api c dryRun dbInstance s).result = Flow.panic) :
    deleteLoop api c dryRun (dbInstance :: rest) s =
      ⟨Flow.panic, (deleteStep api c dryRun dbInstance s).state,
        (deleteStep api c dryRun dbInstance s).trace⟩ := by
  rw [deleteLoop]
  simp only [h]

theorem deleteLoop_cons_fail {σ : Type} (api : RDSAPI σ) (c : Constants) (dryRun : Bool)
    (dbInstance : DBInstance) (rest : List DBInstance) (s : σ) (err : Error)
    (h : (deleteStep api c dryRun dbInstance s).result = Flow.fail err) :
    deleteLoop api c dryRun (dbInstance :: rest) s =
      ⟨Flow.fail err, (deleteStep api c dryRun dbInstance s).state,
        (deleteStep api c dryRun dbInstance s).trace⟩ := by
  rw [deleteLoop]
  simp only [h]

theorem deleteLoop_steps {σ : Type} (api : RDSAPI σ) (c : Constants) (dryRun : Bool)
    (dbs : List DBInstance) (s : σ) :
    ∃ steps : List (Exec σ Call (Flow ReportItem)),
      (deleteLoop api c dryRun dbs s).trace = (steps.map (fun step => step.trace)).flatten ∧
      steps.length ≤ dbs.length ∧
      (∀ (i : Nat) db step, dbs[i]? = some db → steps[i]? = some step →
        ∃ before, step = deleteStep api c dryRun db before) ∧
      (∀ items, (deleteLoop api c dryRun dbs s).result = Flow.next items →
        steps.length = dbs.length ∧
        steps.map (fun step => step.result) = items.map Flow.next) := by
  induction dbs generalizing s with
  | nil =>
    refine ⟨[], rfl, Nat.le_refl _, ?_, ?_⟩
    · intro i db step hdb
      simp at hdb
    · intro items h
      simp only [deleteLoop, Flow.next.injEq] at h
      subst h
      exact ⟨rfl, rfl⟩
  | cons db rest ih =>
    have hone : ∀ (i : Nat) d step, (db :: rest)[i]? = some d →
        [deleteStep api c dryRun db s][i]? = some step →
        ∃ before, step = deleteStep api c dryRun d before := by
      intro i d step hd hstep
      cases i with
      | zero =>
        simp only [List.getElem?_cons_zero, Option.some.injEq] at hd hstep
        exact ⟨s, by rw [← hd, ← hstep]⟩
      | succ k => simp at hstep
    cases hres : (deleteStep api c dryRun db s).result with
    | panic =>
      rw [deleteLoop_cons_panic api c dryRun db rest s hres]
      refine ⟨[deleteStep api c dryRun db s], by simp, by simp, hone, ?_⟩
      intro items h
      simp at h
    | fail err =>
      rw [deleteLoop_cons_fail api c dryRun db rest s err hres]
      refine ⟨[deleteStep api c dryRun db s], by simp, by simp, hone, ?_⟩
      intro items h
      simp at h
    | next item =>
      rw [deleteLoop_cons_next api c dryRun db rest s item hres]
      obtain ⟨steps, htrace, hlen, hsteps, hitems⟩ := ih (deleteStep api c dryRun db s).state
      refine ⟨deleteStep api c dryRun db s :: steps, by simp [htrace], by simp [hlen], ?_, ?_⟩
      · intro i d step hd hstep
        cases i with
        | zero =>
          simp only [List.getElem?_cons_zero, Option.some.injEq] at hd hstep
          exact ⟨s, by rw [← hd, ← hstep]⟩
        | succ k =>
          simp only [List.getElem?_cons_succ] at hd hstep
          exact hsteps k d step hd hstep
      · intro items h
        simp only at h
        cases hlater : (deleteLoop api c dryRun rest
            (deleteStep api c dryRun db s).state).result with
        | panic => rw [hlater] at h; simp [Flow.map] at h
        | fail err => rw [hlater] at h; simp [Flow.map] at h
        | next later =>
          rw [hlater] at h
          simp only [Flow.map, Flow.next.injEq] at h
          subst h
          obtain ⟨hl, hr⟩ := hitems later hlater
          exact ⟨by simp [hl], by simp [hr, hres]⟩

theorem deleteStep_unprotected {σ : Type} (api : RDSAPI σ) (c : Constants) (db : DBInstance)
    (s : σ) (hlive : StringValue db.DBInstanceStatus ≠ c.statusDeleting)
    (hprot : BoolValue db.DeletionProtection = false) :
    deleteStep api c false db s =
      ⟨match (api.DeleteDBInstance s ⟨db.DBInstanceIdentifier, some true, some true⟩).1.2 with
        | some err => Flow.fail (WrapLog err "failed to delete rds instance")
        | none => Flow.next (reportItemFor db ActionStatus.InProgress),
        (api.DeleteDBInstance s ⟨db.DBInstanceIdentifier, some true, some true⟩).2,
        [Call.DeleteDBInstance ⟨db.DBInstanceIdentifier, some true, some true⟩
          (api.DeleteDBInstance s ⟨db.DBInstanceIdentifier, some true, some true⟩).1]⟩ := by
  rw [deleteStep_live api c db s hlive, removeProtection_unprotected api db s hprot]
  rfl

theorem deleteStep_protected {σ : Type} (api : RDSAPI σ) (c : Constants) (db : DBInstance)
    (s : σ) (hlive : StringValue db.DBInstanceStatus ≠ c.statusDeleting)
    (hprot : BoolValue db.DeletionProtection = true) :
    deleteStep api c false db s =
      match (api.ModifyDBInstance s ⟨db.DBInstanceIdentifier, some false⟩).1 with
      | (_, some err) =>
        ⟨Flow.fail (WrapLog err "failed to remove instance protection on database"),
          (api.ModifyDBInstance s ⟨db.DBInstanceIdentifier, some false⟩).2,
          [Call.ModifyDBInstance ⟨db.DBInstanceIdentifier, some false⟩
            (api.ModifyDBInstance s ⟨db.DBInstanceIdentifier, some false⟩).1]⟩
      | (none, none) =>
        ⟨Flow.panic, (api.ModifyDBInstance s ⟨db.DBInstanceIdentifier, some false⟩).2,
          [Call.ModifyDBInstance ⟨db.DBInstanceIdentifier, some false⟩
            (api.ModifyDBInstance s ⟨db.DBInstanceIdentifier, some false⟩).1]⟩
      | (some ⟨none⟩, none) =>
        ⟨Flow.panic, (api.ModifyDBInstance s ⟨db.DBInstanceIdentifier, some false⟩).2,
          [Call.ModifyDBInstance ⟨db.DBInstanceIdentifier, some false⟩
            (api.ModifyDBInstance s ⟨db.DBInstanceIdentifier, some false⟩).1]⟩
      | (some ⟨some current⟩, none) =>
        ⟨match (api.DeleteDBInstance
              (api.ModifyDBInstance s ⟨db.DBInstanceIdentifier, some false⟩).2
              ⟨current.DBInstanceIdentifier, some true, some true⟩).1.2 with
          | some err => Flow.fail (WrapLog err "failed to delete rds instance")
          | none => Flow.next (reportItemFor db ActionStatus.InProgress),
          (api.DeleteDBInstance
            (api.ModifyDBInstance s ⟨db.DBInstanceIdentifier, some false⟩).2
            ⟨current.DBInstanceIdentifier, some true, some true⟩).2,
          [Call.ModifyDBInstance ⟨db.DBInstanceIdentifier, some false⟩
            (api.ModifyDBInstance s ⟨db.DBInstanceIdentifier, some false⟩).1,
           Call.DeleteDBInstance ⟨current.DBInstanceIdentifier, some true, some true⟩
            (api.DeleteDBInstance
              (api.ModifyDBInstance s ⟨db.DBInstanceIdentifier, some false⟩).2
              ⟨current.DBInstanceIdentifier, some true, some true⟩).1]⟩ := by
  rw [deleteStep_live api c db s hlive, removeProtection_protected api db s hprot]
  simp only
  generalize (api.ModifyDBInstance s ⟨db.DBInstanceIdentifier, some false⟩).1 = resp
  rcases resp with ⟨output, err⟩
  rcases output with _ | ⟨⟨_ | current⟩⟩ <;> cases err <;> rfl

theorem deleteStep_mutating {σ : Type} (api : RDSAPI σ) (c : Constants) (dryRun : Bool)
    (db : DBInstance) (s : σ) :
    ∀ call ∈ (deleteStep api c dryRun db s).trace, call.isMutating = true := by
  cases dryRun with
  | true => rw [deleteStep_dryRun]; simp
  | false =>
    by_cases hdel : StringValue db.DBInstanceStatus = c.statusDeleting
    · rw [deleteStep_deleting api c db s hdel]; simp
    · cases hprot : BoolValue db.DeletionProtection with
      | false => rw [deleteStep_unprotected api c db s hdel hprot]; simp [Call.isMutating]
      | true =>
        rw [deleteStep_protected api c db s hdel hprot]
        split <;> simp [Call.isMutating]

theorem deleteLoop_mutating {σ : Type} (api : RDSAPI σ) (c : Constants) (dryRun : Bool)
    (dbs : List DBInstance) (s : σ) :
    ∀ call ∈ (deleteLoop api c dryRun dbs s).trace, call.isMutating = true := by
  induction dbs generalizing s with
  | nil => intro call hcall; simp [deleteLoop] at hcall
  | cons db rest ih =>
    intro call hcall
    rw [deleteLoop] at hcall
    simp only at hcall
    split at hcall
    · exact deleteStep_mutating api c dryRun db s call hcall
    · exact deleteStep_mutating api c dryRun db s call hcall
    · rcases List.mem_append.mp hcall with h | h
      · exact deleteStep_mutating api c dryRun db s call h
      · exact ih _ call h

theorem deleteLoop_dryRun {σ : Type} (api : RDSAPI σ) (c : Constants)
    (dbs : List DBInstance) (s : σ) :
    (deleteLoop api c true dbs s).trace = [] := by
  induction dbs with
  | nil => rfl
  | cons db rest ih =>
    rw [deleteLoop_cons_next api c true db rest s (reportItemFor db ActionStatus.DryRun)
      (by rw [deleteStep_dryRun])]
    simp only [deleteStep_dryRun, List.nil_append]
    exact ih

theorem filterLoop_reads {σ : Type} (api : RDSAPI σ) (c : Constants) (clusterId : String)
    (tags : List (String × String)) (dbs : List (Option DBInstance)) (s : σ) :
    ∀ call ∈ (filterLoop api c clusterId tags dbs s).trace,
      ∃ input response, call = Call.ListTagsForResource input response := by
  induction dbs generalizing s with
  | nil => intro call hcall; simp [filterLoop] at hcall
  | cons dbInstance rest ih =>
    have hstep : ∀ call ∈ (filterStep api c clusterId tags dbInstance s).trace,
        ∃ input response, call = Call.ListTagsForResource input response := by
      cases dbInstance with
      | none => intro call hcall; simp [filterStep] at hcall
      | some db =>
        intro call hcall
        rw [(filterStep_trace api c clusterId tags db s).1, List.mem_singleton] at hcall
        exact ⟨_, _, hcall⟩
    intro call hcall
    rw [filterLoop] at hcall
    simp only at hcall
    split at hcall
    · exact hstep call hcall
    · exact hstep call hcall
    · rcases List.mem_append.mp hcall with h | h
      · exact hstep call h
      · exact ih _ call h

theorem engine_describe_failed {σ : Type} (r : RDSEngine σ) (c : Constants)
    (clusterId : String) (tags : List (String × String)) (dryRun : Bool) (s : σ) (err : Error)
    (h : (r.rdsClient.DescribeDBInstances s ⟨none⟩).1.2 = some err) :
    r.DeleteResourcesForCluster c clusterId tags dryRun s =
      ⟨Outcome.returned ([], some (WrapLog err "failed to describe database clusters")),
        (r.rdsClient.DescribeDBInstances s ⟨none⟩).2,
        [Call.DescribeDBInstances ⟨none⟩ (r.rdsClient.DescribeDBInstances s ⟨none⟩).1]⟩ := by
  unfold RDSEngine.DeleteResourcesForCluster
  simp only
  generalize (r.rdsClient.DescribeDBInstances s ⟨none⟩) = resp at h ⊢
  rcases resp with ⟨⟨output, e⟩, s1⟩
  simp only at h
  subst h
  cases output <;> rfl

theorem engine_describe_nil {σ : Type} (r : RDSEngine σ) (c : Constants)
    (clusterId : String) (tags : List (String × String)) (dryRun : Bool) (s : σ)
    (h : (r.rdsClient.DescribeDBInstances s ⟨none⟩).1 = (none, none)) :
    r.DeleteResourcesForCluster c clusterId tags dryRun s =
      ⟨Outcome.panic, (r.rdsClient.DescribeDBInstances s ⟨none⟩).2,
        [Call.DescribeDBInstances ⟨none⟩ (r.rdsClient.DescribeDBInstances s ⟨none⟩).1]⟩ := by
  unfold RDSEngine.DeleteResourcesForCluster
  simp only [h]

theorem engine_runsSteps {σ : Type} (r : RDSEngine σ) (c : Constants) (clusterId : String)
    (tags : List (String × String)) (dryRun : Bool) (s : σ) :
    ∃ reads steps, RunsSteps r c clusterId tags dryRun s reads steps := by
  unfold RunsSteps
  rcases hresp : (r.rdsClient.DescribeDBInstances s ⟨none⟩).1 with ⟨output, err⟩
  cases err with
  | some e =>
    have he : (r.rdsClient.DescribeDBInstances s ⟨none⟩).1.2 = some e := by rw [hresp]
    rw [engine_describe_failed r c clusterId tags dryRun s e he]
    refine ⟨[Call.DescribeDBInstances ⟨none⟩ (r.rdsClient.DescribeDBInstances s ⟨none⟩).1], [],
      by simp, by simp [Call.isMutating], by simp, by simp, by simp⟩
  | none =>
    cases output with
    | none =>
      rw [engine_describe_nil r c clusterId tags dryRun s hresp]
      refine ⟨[Call.DescribeDBInstances ⟨none⟩ (r.rdsClient.DescribeDBInstances s ⟨none⟩).1],
        [], by simp, by simp [Call.isMutating], by simp, by simp, by simp⟩
    | some out =>
      have hreads : ∀ call ∈ Call.DescribeDBInstances ⟨none⟩ (some out, none) ::
          (filterLoop r.rdsClient c clusterId tags out.DBInstances
            (r.rdsClient.DescribeDBInstances s ⟨none⟩).2).trace, call.isMutating = false := by
        intro call hcall
        rcases List.mem_cons.mp hcall with h | h
        · rw [h]; rfl
        · obtain ⟨input, response, hc⟩ := filterLoop_reads r.rdsClient c clusterId tags _ _ call h
          rw [hc]; rfl
      rw [engine_listed r c clusterId tags dryRun s out hresp]
      unfold RDSEngine.databasesToDelete
      simp only [hresp]
      cases hfilter : (filterLoop r.rdsClient c clusterId tags out.DBInstances
          (r.rdsClient.DescribeDBInstances s ⟨none⟩).2).result with
      | panic => exact ⟨_, [], by simp, hreads, by simp, by simp, by simp⟩
      | fail e => exact ⟨_, [], by simp, hreads, by simp, by simp, by simp⟩
      | next dbs =>
        obtain ⟨steps, htrace, hlen, hsteps, hitems⟩ := deleteLoop_steps r.rdsClient c dryRun dbs
          (filterLoop r.rdsClient c clusterId tags out.DBInstances
            (r.rdsClient.DescribeDBInstances s ⟨none⟩).2).state
        refine ⟨_, steps, by simp only [htrace, List.cons_append], hreads, hlen, hsteps, ?_⟩
        intro items h
        simp only at h
        apply hitems
        generalize (deleteLoop r.rdsClient c dryRun dbs
          (filterLoop r.rdsClient c clusterId tags out.DBInstances
            (r.rdsClient.DescribeDBInstances s ⟨none⟩).2).state).result = res at h ⊢
        cases res with
        | panic => simp at h
        | fail e => simp at h
        | next found =>
          simp only [Outcome.returned.injEq, Prod.mk.injEq, and_true] at h
          rw [h]

theorem deleteStep_modify_first {σ : Type} (api : RDSAPI σ) (c : Constants) (db : DBInstance)
    (s : σ) (hprot : BoolValue db.DeletionProtection = true)
    (hlive : StringValue db.DBInstanceStatus ≠ c.statusDeleting) :
    ∃ response,
      (deleteStep api c false db s).trace.head? =
        some (Call.ModifyDBInstance ⟨db.DBInstanceIdentifier, some false⟩ response) ∧
      (∀ (j : Nat) call, (deleteStep api c false db s).trace[j]? = some call →
        call.isDelete = true → j = 1 ∧ response.2 = none) ∧
      (∀ (j : Nat) call, (deleteStep api c false db s).trace[j]? = some call →
        call.isModify = true → j = 0) := by
  refine ⟨(api.ModifyDBInstance s ⟨db.DBInstanceIdentifier, some false⟩).1, ?_⟩
  rw [deleteStep_protected api c db s hlive hprot]
  generalize (api.ModifyDBInstance s ⟨db.DBInstanceIdentifier, some false⟩).1 = resp
  rcases resp with ⟨output, err⟩
  have single : ∀ (call₀ : Call), call₀.isDelete = false →
      ∀ (j : Nat) call, [call₀][j]? = some call → call.isDelete = true → j = 1 ∧ err = none := by
    intro call₀ h0 j call hj hd
    cases j with
    | zero =>
      simp only [List.getElem?_cons_zero, Option.some.injEq] at hj
      rw [← hj, h0] at hd
      cases hd
    | succ k => simp at hj
  have first : ∀ (call₀ : Call),
      ∀ (j : Nat) call, [call₀][j]? = some call → call.isModify = true → j = 0 := by
    intro call₀ j call hj _
    cases j with
    | zero => rfl
    | succ k => simp at hj
  rcases output with _ | ⟨⟨_ | current⟩⟩ <;> cases err
  · exact ⟨rfl, single _ rfl, first _⟩
  · exact ⟨rfl, single _ rfl, first _⟩
  · exact ⟨rfl, single _ rfl, first _⟩
  · exact ⟨rfl, single _ rfl, first _⟩
  · refine ⟨rfl, ?_, ?_⟩
    · intro j call hj hd
      match j with
      | 0 =>
        simp only [List.getElem?_cons_zero, Option.some.injEq] at hj
        rw [← hj] at hd
        cases hd
      | 1 => exact ⟨rfl, rfl⟩
      | k + 2 => simp at hj
    · intro j call hj hm
      match j with
      | 0 => rfl
      | 1 =>
        simp only [List.getElem?_cons_succ, List.getElem?_cons_zero, Option.some.injEq] at hj
        rw [← hj] at hm
        cases hm
      | k + 2 => simp at hj
  · exact ⟨rfl, single _ rfl, first _⟩

theorem deleteStep_counts {σ : Type} (api : RDSAPI σ) (c : Constants) (db : DBInstance)
    (s : σ) (item : ReportItem) (hres : (deleteStep api c false db s).result = Flow.next item) :
    (deleteStep api c false db s).trace.countP Call.isDelete =
      (if StringValue db.DBInstanceStatus = c.statusDeleting then 0 else 1) ∧
    (deleteStep api c false db s).trace.countP Call.isModify =
      (if StringValue db.DBInstanceStatus = c.statusDeleting then 0
        else if BoolValue db.DeletionProtection = true then 1 else 0) := by
  by_cases hdel : StringValue db.DBInstanceStatus = c.statusDeleting
  · rw [deleteStep_deleting api c db s hdel]
    simp [hdel]
  · cases hprot : BoolValue db.DeletionProtection with
    | false =>
      rw [deleteStep_unprotected api c db s hdel hprot]
      simp [hdel, Call.isDelete, Call.isModify]
    | true =>
      rw [deleteStep_protected api c db s hdel hprot] at hres ⊢
      generalize (api.ModifyDBInstance s ⟨db.DBInstanceIdentifier, some false⟩).1 = resp
        at hres ⊢
      rcases resp with ⟨output, err⟩
      rcases output with _ | ⟨⟨_ | current⟩⟩ <;> cases err <;>
        first
        | (simp at hres; done)
        | simp [hdel, Call.isDelete, Call.isModify]

theorem sum_indicator {α : Type} (q : α → Bool) (l : List α) :
    (l.map (fun a => if q a = true then 1 else 0)).sum = l.countP q := by
  induction l with
  | nil => rfl
  | cons a rest ih =>
    rw [List.map_cons, List.sum_cons, ih, List.countP_cons]
    omega

theorem steps_went_on {σ : Type} (steps : List (Exec σ Call (Flow ReportItem)))
    (items : List ReportItem)
    (hmap : steps.map (fun step => step.result) = items.map Flow.next)
    (i : Nat) (step : Exec σ Call (Flow ReportItem)) (hi : steps[i]? = some step) :
    ∃ item, step.result = Flow.next item := by
  have hat := congrArg (fun l => l[i]?) hmap
  simp only [List.getElem?_map, hi, Option.map_some'] at hat
  cases hitem : items[i]? with
  | none => rw [hitem] at hat; simp at hat
  | some item =>
    rw [hitem] at hat
    simp only [Option.map_some', Option.some.injEq] at hat
    exact ⟨item, hat⟩

theorem steps_counts {σ : Type} (api : RDSAPI σ) (c : Constants)
    (dbs : List DBInstance) (steps : List (Exec σ Call (Flow ReportItem)))
    (items : List ReportItem) (p : Call → Bool) (f : DBInstance → Nat)
    (hlen : steps.length = dbs.length)
    (hsteps : ∀ (i : Nat) db step, dbs[i]? = some db → steps[i]? = some step →
      ∃ before, step = deleteStep api c false db before)
    (hmap : steps.map (fun step => step.result) = items.map Flow.next)
    (hf : ∀ db before item, (deleteStep api c false db before).result = Flow.next item →
      (deleteStep api c false db before).trace.countP p = f db) :
    (steps.map (fun step => step.trace)).flatten.countP p = (dbs.map f).sum := by
  rw [List.countP_flatten, List.map_map]
  congr 1
  apply List.ext_getElem?
  intro i
  simp only [List.getElem?_map]
  cases hi : steps[i]? with
  | none =>
    have hge : dbs.length ≤ i := by
      rw [← hlen]
      exact List.getElem?_eq_none_iff.mp hi
    rw [List.getElem?_eq_none hge]
    rfl
  | some step =>
    have hlt : i < dbs.length := by
      rw [← hlen]
      rcases List.getElem?_eq_some.mp hi with ⟨hlt, _⟩
      exact hlt
    have hdb : dbs[i]? = some (dbs.get ⟨i, hlt⟩) := List.getElem?_eq_getElem hlt
    obtain ⟨before, hbefore⟩ := hsteps i _ step hdb hi
    obtain ⟨item, hitem⟩ := steps_went_on steps items hmap i step hi
    rw [hdb]
    simp only [Option.map_some', Function.comp_apply, Option.some.injEq]
    rw [hbefore] at hitem ⊢
    exact hf _ before item hitem

/-! ## Calls that come back with an error -/

theorem filterStep_failed {σ : Type} (api : RDSAPI σ) (c : Constants) (clusterId : String)
    (tags : List (String × String)) (db : DBInstance) (s : σ) (err : Error)
    (h : (api.ListTagsForResource s ⟨db.DBInstanceArn⟩).1.2 = some err) :
    (filterStep api c clusterId tags (some db) s).result =
      Flow.fail (WrapLog err "failed to list tags for database cluster") := by
  unfold filterStep
  simp only
  generalize (api.ListTagsForResource s ⟨db.DBInstanceArn⟩) = resp at h ⊢
  rcases resp with ⟨⟨output, e⟩, s1⟩
  simp only at h
  subst h
  cases output <;> rfl

theorem filterLoop_cons_panic {σ : Type} (api : RDSAPI σ) (c : Constants) (clusterId : String)
    (tags : List (String × String)) (dbInstance : Option DBInstance)
    (rest : List (Option DBInstance)) (s : σ)
    (h : (filterStep api c clusterId tags dbInstance s).result = Flow.panic) :
    filterLoop api c clusterId tags (dbInstance :: rest) s =
      ⟨Flow.panic, (filterStep api c clusterId tags dbInstance s).state,
        (filterStep api c clusterId tags dbInstance s).trace⟩ := by
  rw [filterLoop]
  simp only [h]

theorem filterLoop_cons_fail {σ : Type} (api : RDSAPI σ) (c : Constants) (clusterId : String)
    (tags : List (String × String)) (dbInstance : Option DBInstance)
    (rest : List (Option DBInstance)) (s : σ) (err : Error)
    (h : (filterStep api c clusterId tags dbInstance s).result = Flow.fail err) :
    filterLoop api c clusterId tags (dbInstance :: rest) s =
      ⟨Flow.fail err, (filterStep api c clusterId tags dbInstance s).state,
        (filterStep api c clusterId tags dbInstance s).trace⟩ := by
  rw [filterLoop]
  simp only [h]

theorem filterLoop_failed_call {σ : Type} (api : RDSAPI σ) (c : Constants)
    (clusterId : String) (tags : List (String × String)) (dbs : List (Option DBInstance))
    (s : σ) (k : Nat) (call : Call) (err : Error)
    (hcall : (filterLoop api c clusterId tags dbs s).trace[k]? = some call)
    (herr : call.error = some err) :
    k + 1 = (filterLoop api c clusterId tags dbs s).trace.length ∧
    (filterLoop api c clusterId tags dbs s).result =
      Flow.fail (WrapLog err "failed to list tags for database cluster") ∧
    ∃ db output, dbs[k]? = some (some db) ∧
      call = Call.ListTagsForResource ⟨db.DBInstanceArn⟩ (output, some err) := by
  induction dbs generalizing s k with
  | nil => simp [filterLoop] at hcall
  | cons dbInstance rest ih =>
    cases dbInstance with
    | none =>
      rw [filterLoop_cons_panic api c clusterId tags none rest s rfl] at hcall
      simp [filterStep] at hcall
    | some db =>
      obtain ⟨htrace, _⟩ := filterStep_trace api c clusterId tags db s
      have hzero : ∀ first : Call, some (Call.ListTagsForResource ⟨db.DBInstanceArn⟩
          (api.ListTagsForResource s ⟨db.DBInstanceArn⟩).1) = some first →
          first.error = some err →
          (filterStep api c clusterId tags (some db) s).result =
            Flow.fail (WrapLog err "failed to list tags for database cluster") ∧
          ∃ output, first = Call.ListTagsForResource ⟨db.DBInstanceArn⟩ (output, some err) := by
        intro first hfirst he
        simp only [Option.some.injEq] at hfirst
        subst hfirst
        simp only [Call.error] at he
        refine ⟨filterStep_failed api c clusterId tags db s err he,
          (api.ListTagsForResource s ⟨db.DBInstanceArn⟩).1.1, ?_⟩
        rw [← he]
      cases hres : (filterStep api c clusterId tags (some db) s).result with
      | panic =>
        rw [filterLoop_cons_panic api c clusterId tags (some db) rest s hres, htrace] at hcall
        cases k with
        | zero =>
          simp only [List.getElem?_cons_zero] at hcall
          rw [(hzero call hcall herr).1] at hres
          cases hres
        | succ n => simp at hcall
      | fail e =>
        rw [filterLoop_cons_fail api c clusterId tags (some db) rest s e hres, htrace]
          at hcall ⊢
        cases k with
        | zero =>
          simp only [List.getElem?_cons_zero] at hcall
          obtain ⟨hfail, output, hout⟩ := hzero call hcall herr
          rw [hfail] at hres
          cases hres
          exact ⟨rfl, rfl, db, output, by simp, hout⟩
        | succ n => simp at hcall
      | next kept =>
        rw [filterLoop_cons_next api c clusterId tags (some db) rest s kept hres, htrace]
          at hcall ⊢
        cases k with
        | zero =>
          simp only [List.singleton_append, List.getElem?_cons_zero] at hcall
          rw [(hzero call hcall herr).1] at hres
          cases hres
        | succ n =>
          simp only [List.singleton_append, List.getElem?_cons_succ] at hcall
          obtain ⟨hlen, hfail, found⟩ := ih _ n hcall
          refine ⟨by simp [← hlen], by rw [hfail]; rfl, ?_⟩
          simpa using found

theorem deleteStep_failed_call {σ : Type} (api : RDSAPI σ) (c : Constants) (dryRun : Bool)
    (db : DBInstance) (s : σ) (k : Nat) (call : Call) (err : Error)
    (hcall : (deleteStep api c dryRun db s).trace[k]? = some call)
    (herr : call.error = some err) :
    k + 1 = (deleteStep api c dryRun db s).trace.length ∧
    ∃ msg, (deleteStep api c dryRun db s).result = Flow.fail (WrapLog err msg) := by
  cases dryRun with
  | true => rw [deleteStep_dryRun] at hcall; simp at hcall
  | false =>
    by_cases hdel : StringValue db.DBInstanceStatus = c.statusDeleting
    · rw [deleteStep_deleting api c db s hdel] at hcall; simp at hcall
    · cases hprot : BoolValue db.DeletionProtection with
      | false =>
        rw [deleteStep_unprotected api c db s hdel hprot] at hcall ⊢
        cases k with
        | zero =>
          simp only [List.getElem?_cons_zero, Option.some.injEq] at hcall
          subst hcall
          simp only [Call.error] at herr
          exact ⟨rfl, "failed to delete rds instance", by simp only [herr]⟩
        | succ n => simp at hcall
      | true =>
        rw [deleteStep_protected api c db s hdel hprot] at hcall ⊢
        generalize (api.ModifyDBInstance s ⟨db.DBInstanceIdentifier, some false⟩) = resp
          at hcall ⊢
        rcases resp with ⟨⟨output, e⟩, s1⟩
        rcases output with _ | ⟨⟨_ | current⟩⟩ <;> cases e <;> simp only at hcall ⊢
        all_goals
          first
          | (match k, hcall with
              | 0, hcall =>
                simp only [List.getElem?_cons_zero, Option.some.injEq] at hcall
                subst hcall
                simp only [Call.error] at herr
                first
                  | (cases herr; done)
                  | (cases herr
                     exact ⟨rfl, "failed to remove instance protection on database", rfl⟩)
              | n + 1, hcall => simp at hcall)
          | skip
        match k, hcall with
        | 0, hcall =>
          simp only [List.getElem?_cons_zero, Option.some.injEq] at hcall
          subst hcall
          cases herr
        | 1, hcall =>
          simp only [List.getElem?_cons_succ, List.getElem?_cons_zero, Option.some.injEq]
            at hcall
          subst hcall
          simp only [Call.error] at herr
          exact ⟨rfl, "failed to delete rds instance", by simp only [herr]⟩
        | n + 2, hcall => simp at hcall

theorem deleteLoop_failed_call {σ : Type} (api : RDSAPI σ) (c : Constants) (dryRun : Bool)
    (dbs : List DBInstance) (s : σ) (k : Nat) (call : Call) (err : Error)
    (hcall : (deleteLoop api c dryRun dbs s).trace[k]? = some call)
    (herr : call.error = some err) :
    k + 1 = (deleteLoop api c dryRun dbs s).trace.length ∧
    ∃ msg, (deleteLoop api c dryRun dbs s).result = Flow.fail (WrapLog err msg) := by
  induction dbs generalizing s k with
  | nil => simp [deleteLoop] at hcall
  | cons db rest ih =>
    cases hres : (deleteStep api c dryRun db s).result with
    | panic =>
      rw [deleteLoop_cons_panic api c dryRun db rest s hres] at hcall ⊢
      obtain ⟨_, msg, hmsg⟩ := deleteStep_failed_call api c dryRun db s k call err hcall herr
      rw [hmsg] at hres
      cases hres
    | fail e =>
      rw [deleteLoop_cons_fail api c dryRun db rest s e hres] at hcall ⊢
      obtain ⟨hlen, msg, hmsg⟩ := deleteStep_failed_call api c dryRun db s k call err hcall herr
      rw [hmsg] at hres
      cases hres
      exact ⟨hlen, msg, rfl⟩
    | next item =>
      rw [deleteLoop_cons_next api c dryRun db rest s item hres] at hcall ⊢
      simp only at hcall ⊢
      by_cases hk : k < (deleteStep api c dryRun db s).trace.length
      · rw [List.getElem?_append_left hk] at hcall
        obtain ⟨_, msg, hmsg⟩ := deleteStep_failed_call api c dryRun db s k call err hcall herr
        rw [hmsg] at hres
        cases hres
      · rw [List.getElem?_append_right (Nat.le_of_not_lt hk)] at hcall
        obtain ⟨hlen, msg, hmsg⟩ := ih _ _ hcall
        refine ⟨?_, msg, by rw [hmsg]; rfl⟩
        rw [List.length_append, ← hlen]
        omega

theorem engine_failed_call {σ : Type} (r : RDSEngine σ) (c : Constants) (clusterId : String)
    (tags : List (String × String)) (dryRun : Bool) (s : σ) (j : Nat) (call : Call)
    (err : Error)
    (hcall : (r.DeleteResourcesForCluster c clusterId tags dryRun s).trace[j]? = some call)
    (herr : call.error = some err) :
    j + 1 = (r.DeleteResourcesForCluster c clusterId tags dryRun s).trace.length ∧
    ∃ msg, (r.DeleteResourcesForCluster c clusterId tags dryRun s).result =
      Outcome.returned ([], some (WrapLog err msg)) := by
  rcases hresp : (r.rdsClient.DescribeDBInstances s ⟨none⟩).1 with ⟨output, e⟩
  cases e with
  | some e =>
    have he : (r.rdsClient.DescribeDBInstances s ⟨none⟩).1.2 = some e := by rw [hresp]
    rw [engine_describe_failed r c clusterId tags dryRun s e he] at hcall ⊢
    cases j with
    | zero =>
      simp only [List.getElem?_cons_zero, Option.some.injEq] at hcall
      subst hcall
      simp only [Call.error, he, Option.some.injEq] at herr
      subst herr
      exact ⟨rfl, _, rfl⟩
    | succ n => simp at hcall
  | none =>
    cases output with
    | none =>
      rw [engine_describe_nil r c clusterId tags dryRun s hresp] at hcall
      cases j with
      | zero =>
        simp only [List.getElem?_cons_zero, Option.some.injEq] at hcall
        subst hcall
        simp [Call.error, hresp] at herr
      | succ n => simp at hcall
    | some out =>
      rw [engine_listed r c clusterId tags dryRun s out hresp] at hcall ⊢
      cases j with
      | zero =>
        exfalso
        have hhead : some (Call.DescribeDBInstances ⟨none⟩ (some out, none)) = some call := by
          rw [← hcall]
          split <;> simp
        simp only [Option.some.injEq] at hhead
        subst hhead
        simp [Call.error] at herr
      | succ n =>
        cases hfilter : (filterLoop r.rdsClient c clusterId tags out.DBInstances
            (r.rdsClient.DescribeDBInstances s ⟨none⟩).2).result with
        | panic =>
          rw [hfilter] at hcall
          simp only [List.getElem?_cons_succ] at hcall
          obtain ⟨_, hfail, _⟩ := filterLoop_failed_call r.rdsClient c clusterId tags _ _ n
            call err hcall herr
          rw [hfail] at hfilter
          cases hfilter
        | fail e =>
          rw [hfilter] at hcall
          simp only [List.getElem?_cons_succ] at hcall ⊢
          obtain ⟨hlen, hfail, _⟩ := filterLoop_failed_call r.rdsClient c clusterId tags _ _ n
            call err hcall herr
          rw [hfail] at hfilter
          cases hfilter
          exact ⟨by simp [← hlen], _, rfl⟩
        | next dbs =>
          rw [hfilter] at hcall
          simp only [List.getElem?_cons_succ] at hcall ⊢
          by_cases hn : n < (filterLoop r.rdsClient c clusterId tags out.DBInstances
              (r.rdsClient.DescribeDBInstances s ⟨none⟩).2).trace.length
          · rw [List.getElem?_append_left hn] at hcall
            obtain ⟨_, hfail, _⟩ := filterLoop_failed_call r.rdsClient c clusterId tags _ _ n
              call err hcall herr
            rw [hfail] at hfilter
            cases hfilter
          · rw [List.getElem?_append_right (Nat.le_of_not_lt hn)] at hcall
            obtain ⟨hlen, msg, hmsg⟩ := deleteLoop_failed_call r.rdsClient c dryRun _ _ _
              call err hcall herr
            refine ⟨?_, msg, by rw [hmsg]⟩
            simp only [List.length_cons, List.length_append]
            omega

theorem engine_error_no_items {σ : Type} (r : RDSEngine σ) (c : Constants)
    (clusterId : String) (tags : List (String × String)) (dryRun : Bool) (s : σ)
    (items : List ReportItem) (err : Error)
    (h : (r.DeleteResourcesForCluster c clusterId tags dryRun s).result =
      Outcome.returned (items, some err)) : items = [] := by
  rcases hresp : (r.rdsClient.DescribeDBInstances s ⟨none⟩).1 with ⟨output, e⟩
  cases e with
  | some e =>
    have he : (r.rdsClient.DescribeDBInstances s ⟨none⟩).1.2 = some e := by rw [hresp]
    rw [engine_describe_failed r c clusterId tags dryRun s e he] at h
    simp only [Outcome.returned.injEq, Prod.mk.injEq] at h
    exact h.1.symm
  | none =>
    cases output with
    | none =>
      rw [engine_describe_nil r c clusterId tags dryRun s hresp] at h
      cases h
    | some out =>
      rw [engine_listed r c clusterId tags dryRun s out hresp] at h
      split at h
      · cases h
      · simp only [Outcome.returned.injEq, Prod.mk.injEq] at h
        exact h.1.symm
      · simp only at h
        split at h
        · cases h
        · simp only [Outcome.returned.injEq, Prod.mk.injEq] at h
          exact h.1.symm
        · simp at h

/-! ## Claims about the engine -/

/-- C1. When the listing, every tag lookup and every mutating call of a run succeed, the
engine returns, without error, exactly one report item for each listed instance whose
looked-up tag list holds the pair (`tagKeyClusterId`, `clusterId`) and every pair of the
extra tags, no item for any other listed instance, and the items are in the order of the
listing. Here `dbs` is what the listing returned and `tagLists` what the lookups
returned, instance by instance. -/
theorem DeleteResourcesForCluster_reports_selected {σ : Type} (r : RDSEngine σ)
    (c : Constants) (clusterId : String) (tags : List (String × String)) (dryRun : Bool)
    (s : σ)
    (hok : ∀ call ∈ (r.DeleteResourcesForCluster c clusterId tags dryRun s).trace,
      call.succeeded = true) :
    ∃ (dbs : List DBInstance) (marker : Option String) (tagLists : List (List Tag))
      (mutations : List Call),
      tagLists.length = dbs.length ∧
      (r.DeleteResourcesForCluster c clusterId tags dryRun s).trace =
        Call.DescribeDBInstances ⟨none⟩ (some ⟨dbs.map some, marker⟩, none) ::
          (List.zipWith lookupCall dbs tagLists ++ mutations) ∧
      (r.DeleteResourcesForCluster c clusterId tags dryRun s).result =
        Outcome.returned
          (((dbs.zip tagLists).filter (fun p => decide (Selected c clusterId tags p.2))).map
            (fun p => reportItemFor p.1 (finalStatus dryRun)), none) := by
  obtain ⟨more, hmore⟩ := engine_trace_head r c clusterId tags dryRun s
  have hfirst := hok _ (by rw [hmore]; exact List.mem_cons_self _ _)
  obtain ⟨dbs, marker, hresp⟩ : ∃ (dbs : List DBInstance) (marker : Option String),
      (r.rdsClient.DescribeDBInstances s ⟨none⟩).1 = (some ⟨dbs.map some, marker⟩, none) := by
    generalize (r.rdsClient.DescribeDBInstances s ⟨none⟩).1 = resp at hfirst
    rcases resp with ⟨output, err⟩
    cases err with
    | some e => cases output <;> simp [Call.succeeded] at hfirst
    | none =>
      cases output with
      | none => simp [Call.succeeded] at hfirst
      | some out =>
        rcases out with ⟨instances, marker⟩
        simp only [Call.succeeded] at hfirst
        obtain ⟨dbs, hdbs⟩ := all_isSome_eq_map_some instances hfirst
        exact ⟨dbs, marker, by rw [hdbs]⟩
  rw [engine_listed r c clusterId tags dryRun s _ hresp] at hok ⊢
  simp only at hok ⊢
  generalize (r.rdsClient.DescribeDBInstances s ⟨none⟩).2 = s1 at hok ⊢
  have hfilter : ∀ call ∈ (filterLoop r.rdsClient c clusterId tags (dbs.map some) s1).trace,
      call.succeeded = true := by
    intro call hcall
    apply hok
    split
    · exact List.mem_cons_of_mem _ hcall
    · exact List.mem_cons_of_mem _ hcall
    · exact List.mem_cons_of_mem _ (List.mem_append_left _ hcall)
  obtain ⟨tagLists, hlen, hres, htrace⟩ :=
    filterLoop_of_succeeded r.rdsClient c clusterId tags dbs s1 hfilter
  rw [hres] at hok ⊢
  simp only at hok ⊢
  rw [htrace] at hok ⊢
  generalize (filterLoop r.rdsClient c clusterId tags (dbs.map some) s1).state = s2 at hok ⊢
  have hdelete := deleteLoop_of_succeeded r.rdsClient c dryRun _ s2 (fun call hcall =>
    hok call (List.mem_cons_of_mem _ (List.mem_append_right _ hcall)))
  refine ⟨dbs, marker, tagLists, _, hlen, rfl, ?_⟩
  rw [hdelete]
  simp only [List.map_map]
  rfl

/-- C1 on the test double with three databases: all calls succeed, and the two
databases carrying both tags are reported, in listing order. -/
theorem DeleteResourcesForCluster_reports_selected_witness :
    (∀ call ∈ (fakeEngine.DeleteResourcesForCluster exampleConstants "abc"
        [("custodian", "true")] false fakeThree).trace, call.succeeded = true) ∧
    (∃ (dbs : List DBInstance) (marker : Option String) (tagLists : List (List Tag))
      (mutations : List Call),
      tagLists.length = dbs.length ∧
      (fakeEngine.DeleteResourcesForCluster exampleConstants "abc"
        [("custodian", "true")] false fakeThree).trace =
        Call.DescribeDBInstances ⟨none⟩ (some ⟨dbs.map some, marker⟩, none) ::
          (List.zipWith lookupCall dbs tagLists ++ mutations) ∧
      (fakeEngine.DeleteResourcesForCluster exampleConstants "abc"
        [("custodian", "true")] false fakeThree).result =
        Outcome.returned
          (((dbs.zip tagLists).filter
            (fun p => decide (Selected exampleConstants "abc" [("custodian", "true")] p.2))).map
            (fun p => reportItemFor p.1 (finalStatus false)), none)) ∧
    (fakeEngine.DeleteResourcesForCluster exampleConstants "abc"
        [("custodian", "true")] false fakeThree).result =
      Outcome.returned ([reportItemFor dbOne ActionStatus.InProgress,
        reportItemFor dbThree ActionStatus.InProgress], none) :=
  ⟨by decide,
    DeleteResourcesForCluster_reports_selected fakeEngine exampleConstants "abc"
      [("custodian", "true")] false fakeThree (by decide),
    by decide⟩

/-- C2. With `dryRun = true` no call of the run is a `ModifyDBInstance` or a
`DeleteDBInstance` call, for every provider and however the run ends (with a report,
with an error, or with a panic). -/
theorem dryRun_issues_no_mutating_call {σ : Type} (r : RDSEngine σ) (c : Constants)
    (clusterId : String) (tags : List (String × String)) (s : σ) :
    ∀ call ∈ (r.DeleteResourcesForCluster c clusterId tags true s).trace,
      call.isMutating = false := by
  obtain ⟨reads, steps, htrace, hreads, hlen, hsteps, _⟩ :=
    engine_runsSteps r c clusterId tags true s
  intro call hcall
  rw [htrace] at hcall
  rcases List.mem_append.mp hcall with h | h
  · exact hreads call h
  · exfalso
    obtain ⟨segment, hseg, hin⟩ := List.mem_flatten.mp h
    obtain ⟨step, hstep, rfl⟩ := List.mem_map.mp hseg
    obtain ⟨i, hi⟩ := List.getElem?_of_mem hstep
    have hlt : i < steps.length := by
      rcases List.getElem?_eq_some.mp hi with ⟨hlt, _⟩
      exact hlt
    obtain ⟨db, hdb⟩ : ∃ db, (r.databasesToDelete c clusterId tags s)[i]? = some db :=
      ⟨_, List.getElem?_eq_getElem (Nat.lt_of_lt_of_le hlt hlen)⟩
    obtain ⟨before, hbefore⟩ := hsteps i db step hdb hi
    rw [hbefore, deleteStep_dryRun] at hin
    simp at hin

/-- C2 on the test double of the spec's example: the dry run lists and looks tags up,
nothing else, and reports the database with status `DryRun`. -/
theorem dryRun_issues_no_mutating_call_witness :
    ((fakeEngine.DeleteResourcesForCluster exampleConstants "abc"
        [("custodian", "true")] true fakeOne).trace.map Call.isMutating = [false, false]) ∧
    (fakeEngine.DeleteResourcesForCluster exampleConstants "abc"
        [("custodian", "true")] true fakeOne).result =
      Outcome.returned ([reportItemFor dbOne ActionStatus.DryRun], none) ∧
    (fakeEngine.DeleteResourcesForCluster exampleConstants "abc"
        [("custodian", "true")] true fakeOne).state = fakeOne ∧
    (∀ call ∈ (fakeEngine.DeleteResourcesForCluster exampleConstants "abc"
        [("custodian", "true")] true fakeOne).trace, call.isMutating = false) :=
  ⟨by decide, by decide, by decide,
    dryRun_issues_no_mutating_call fakeEngine exampleConstants "abc"
      [("custodian", "true")] fakeOne⟩

/-- C6, as the code has it. With `dryRun = false`, an instance to delete whose status is
already `statusDeleting` costs no call: the pass of the second loop for it issues no call
at all (neither `ModifyDBInstance` nor `DeleteDBInstance`), whether or not its
deletion-protection flag is set, and goes on with its item, whose `ActionStatus` is
`InProgress`. When the engine returns without error there is exactly one item for each
of the instances to delete, and the item at the position of this one has `ActionStatus`
equal to `InProgress` (with `Action` equal to `Delete` and the ARN as `ID`). When the
engine returns an error it returns no item at all. -/
theorem already_deleting_reported_untouched {σ : Type} (r : RDSEngine σ) (c : Constants)
    (clusterId : String) (tags : List (String × String)) (s : σ) :
    (∃ reads steps, RunsSteps r c clusterId tags false s reads steps ∧
      ∀ (i : Nat) db, (r.databasesToDelete c clusterId tags s)[i]? = some db →
        StringValue db.DBInstanceStatus = c.statusDeleting →
        (∀ step, steps[i]? = some step →
          step.trace = [] ∧
          ∃ item, step.result = Flow.next item ∧
            item.ActionStatus = ActionStatus.InProgress ∧
            item.Action = Action.Delete ∧ item.ID = StringValue db.DBInstanceArn) ∧
        (∀ items, (r.DeleteResourcesForCluster c clusterId tags false s).result =
            Outcome.returned (items, none) →
          items.length = (r.databasesToDelete c clusterId tags s).length ∧
          ∃ item, items[i]? = some item ∧
            item.ActionStatus = ActionStatus.InProgress ∧
            item.Action = Action.Delete ∧ item.ID = StringValue db.DBInstanceArn)) ∧
    (∀ items err, (r.DeleteResourcesForCluster c clusterId tags false s).result =
      Outcome.returned (items, some err) → items = []) := by
  refine ⟨?_, fun items err h => engine_error_no_items r c clusterId tags false s items err h⟩
  obtain ⟨reads, steps, hruns⟩ := engine_runsSteps r c clusterId tags false s
  refine ⟨reads, steps, hruns, ?_⟩
  obtain ⟨_, _, _, hsteps, hitems⟩ := hruns
  intro i db hdb hdel
  have hstep : ∀ step, steps[i]? = some step →
      step.trace = [] ∧ step.result = Flow.next (reportItemFor db ActionStatus.InProgress) := by
    intro step hi
    obtain ⟨before, hbefore⟩ := hsteps i db step hdb hi
    rw [hbefore, deleteStep_deleting r.rdsClient c db before hdel]
    exact ⟨rfl, rfl⟩
  refine ⟨fun step hi => ⟨(hstep step hi).1, _, (hstep step hi).2, rfl, rfl, rfl⟩, ?_⟩
  intro items hres
  obtain ⟨hlen, hmap⟩ := hitems items hres
  have hlens : items.length = steps.length := by
    have := congrArg List.length hmap
    simpa using this.symm
  refine ⟨by rw [hlens, hlen], ?_⟩
  have hlt : i < steps.length := by
    rw [hlen]
    rcases List.getElem?_eq_some.mp hdb with ⟨hlt, _⟩
    exact hlt
  have hi : steps[i]? = some (steps.get ⟨i, hlt⟩) := List.getElem?_eq_getElem hlt
  obtain ⟨_, hr⟩ := hstep _ hi
  have hat := congrArg (fun l => l[i]?) hmap
  simp only [List.getElem?_map, hi, Option.map_some', hr] at hat
  cases hitem : items[i]? with
  | none => rw [hitem] at hat; simp at hat
  | some item =>
    rw [hitem] at hat
    simp only [Option.map_some', Option.some.injEq, Flow.next.injEq] at hat
    exact ⟨item, rfl, by rw [← hat]; exact ⟨rfl, rfl, rfl⟩⟩

/-- C6 on the test double with three databases: the third is protected and already
deleting. The run returns two items, the second being the item of that database with
status `InProgress`, and the only calls after the reads are the modification and the
deletion of the first database. -/
theorem already_deleting_reported_untouched_witness :
    (fakeEngine.databasesToDelete exampleConstants "abc" [("custodian", "true")] fakeThree =
      [dbOne, dbThree]) ∧
    (StringValue dbThree.DBInstanceStatus = exampleConstants.statusDeleting ∧
      BoolValue dbThree.DeletionProtection = true) ∧
    ((fakeEngine.DeleteResourcesForCluster exampleConstants "abc"
        [("custodian", "true")] false fakeThree).result =
      Outcome.returned ([⟨"arn:aws:rds:eu-west-1:1:db:db-one", "cluster-one",
          Action.Delete, ActionStatus.InProgress⟩,
        ⟨"arn:aws:rds:eu-west-1:1:db:db-three", "", Action.Delete,
          ActionStatus.InProgress⟩], none)) ∧
    ((fakeEngine.DeleteResourcesForCluster exampleConstants "abc"
        [("custodian", "true")] false fakeThree).trace.filterMap
        (fun call => match call with
          | Call.ModifyDBInstance input _ => some input.DBInstanceIdentifier
          | Call.DeleteDBInstance input _ => some input.DBInstanceIdentifier
          | _ => none) = [some "db-one", some "db-one"]) ∧
    (∃ reads steps, RunsSteps fakeEngine exampleConstants "abc" [("custodian", "true")] false
        fakeThree reads steps ∧
      ∀ (i : Nat) db, (fakeEngine.databasesToDelete exampleConstants "abc"
          [("custodian", "true")] fakeThree)[i]? = some db →
        StringValue db.DBInstanceStatus = exampleConstants.statusDeleting →
        (∀ step, steps[i]? = some step →
          step.trace = [] ∧
          ∃ item, step.result = Flow.next item ∧
            item.ActionStatus = ActionStatus.InProgress ∧
            item.Action = Action.Delete ∧ item.ID = StringValue db.DBInstanceArn) ∧
        (∀ items, (fakeEngine.DeleteResourcesForCluster exampleConstants "abc"
            [("custodian", "true")] false fakeThree).result = Outcome.returned (items, none) →
          items.length = (fakeEngine.databasesToDelete exampleConstants "abc"
            [("custodian", "true")] fakeThree).length ∧
          ∃ item, items[i]? = some item ∧
            item.ActionStatus = ActionStatus.InProgress ∧
            item.Action = Action.Delete ∧ item.ID = StringValue db.DBInstanceArn)) :=
  ⟨by decide, by decide, by decide, by decide,
    (already_deleting_reported_untouched fakeEngine exampleConstants "abc"
      [("custodian", "true")] fakeThree).1⟩

/-- C6 fails when another instance to delete fails. The first instance to delete is
already deleting and the deletion of the second is refused: the engine returns the error
and no item, so no item is emitted for the instance that is already deleting. No call was
issued for that instance. -/
theorem already_deleting_unreported_on_failure :
    (fakeEngine.databasesToDelete exampleConstants "abc" [("custodian", "true")]
        fakeDeletingThenStuck = [dbThree, dbOne]) ∧
    StringValue dbThree.DBInstanceStatus = exampleConstants.statusDeleting ∧
    ((fakeEngine.DeleteResourcesForCluster exampleConstants "abc"
        [("custodian", "true")] false fakeDeletingThenStuck).result =
      Outcome.returned ([], some (Error.wrapped (Error.raised "InvalidDBInstanceState")
        "failed to delete rds instance"))) ∧
    ((fakeEngine.DeleteResourcesForCluster exampleConstants "abc"
        [("custodian", "true")] false fakeDeletingThenStuck).trace.filterMap
        (fun call => match call with
          | Call.ModifyDBInstance input _ => some input.DBInstanceIdentifier
          | Call.DeleteDBInstance input _ => some input.DBInstanceIdentifier
          | _ => none) = [some "db-one", some "db-one"]) :=
  ⟨by decide, by decide, by decide, by decide⟩

/-- C7. With `dryRun = false`, the pass of the second loop for an instance to delete that
has deletion protection on and is not already deleting begins with the `ModifyDBInstance`
call that sets `DeletionProtection` to false for that instance; it issues no other
modification; and a `DeleteDBInstance` call occurs in it only right after that
modification, and only when the modification returned without error. -/
theorem protection_cleared_before_delete {σ : Type} (r : RDSEngine σ) (c : Constants)
    (clusterId : String) (tags : List (String × String)) (s : σ) :
    ∃ reads steps, RunsSteps r c clusterId tags false s reads steps ∧
      ∀ (i : Nat) db step, (r.databasesToDelete c clusterId tags s)[i]? = some db →
        steps[i]? = some step →
        BoolValue db.DeletionProtection = true →
        StringValue db.DBInstanceStatus ≠ c.statusDeleting →
        ∃ response,
          step.trace.head? =
            some (Call.ModifyDBInstance ⟨db.DBInstanceIdentifier, some false⟩ response) ∧
          (∀ (j : Nat) call, step.trace[j]? = some call → call.isDelete = true →
            j = 1 ∧ response.2 = none) ∧
          (∀ (j : Nat) call, step.trace[j]? = some call → call.isModify = true → j = 0) := by
  obtain ⟨reads, steps, hruns⟩ := engine_runsSteps r c clusterId tags false s
  refine ⟨reads, steps, hruns, ?_⟩
  obtain ⟨_, _, _, hsteps, _⟩ := hruns
  intro i db step hdb hi hprot hlive
  obtain ⟨before, hbefore⟩ := hsteps i db step hdb hi
  rw [hbefore]
  exact deleteStep_modify_first r.rdsClient c db before hprot hlive

/-- C7 on the test doubles of the spec's example: the modification of the protected
database comes right before its deletion; when the modification is refused, the run ends
with it and no deletion is issued. -/
theorem protection_cleared_before_delete_witness :
    ((fakeEngine.DeleteResourcesForCluster exampleConstants "abc"
        [("custodian", "true")] false fakeOne).trace.map
        (fun call => (call.isModify, call.isDelete, call.error)) =
      [(false, false, none), (false, false, none), (true, false, none),
        (false, true, none)]) ∧
    ((fakeEngine.DeleteResourcesForCluster exampleConstants "abc"
        [("custodian", "true")] false fakeOneLocked).trace.map
        (fun call => (call.isModify, call.isDelete, call.error)) =
      [(false, false, none), (false, false, none),
        (true, false, some (Error.raised "InvalidDBInstanceState"))]) ∧
    (∃ reads steps, RunsSteps fakeEngine exampleConstants "abc" [("custodian", "true")] false
        fakeOne reads steps ∧
      ∀ (i : Nat) db step, (fakeEngine.databasesToDelete exampleConstants "abc"
          [("custodian", "true")] fakeOne)[i]? = some db →
        steps[i]? = some step →
        BoolValue db.DeletionProtection = true →
        StringValue db.DBInstanceStatus ≠ exampleConstants.statusDeleting →
        ∃ response,
          step.trace.head? =
            some (Call.ModifyDBInstance ⟨db.DBInstanceIdentifier, some false⟩ response) ∧
          (∀ (j : Nat) call, step.trace[j]? = some call → call.isDelete = true →
            j = 1 ∧ response.2 = none) ∧
          (∀ (j : Nat) call, step.trace[j]? = some call → call.isModify = true → j = 0)) :=
  ⟨by decide, by decide,
    protection_cleared_before_delete fakeEngine exampleConstants "abc"
      [("custodian", "true")] fakeOne⟩

/-- C8. In a run with `dryRun = false` that returns items, every instance to delete
has its pass of the second loop, and the pass of an instance that is not already
deleting holds exactly one `DeleteDBInstance` call, and exactly one `ModifyDBInstance`
call when the deletion-protection flag of the instance is set and none when it is not.
Over the whole run that makes as many deletions as there are instances to delete that
are not already deleting, and as many modifications as there are protected ones among
them. For the spec's example (one matching protected database): one modification, one
deletion, and one item with action `Delete`. -/
theorem one_delete_per_live_instance {σ : Type} (r : RDSEngine σ) (c : Constants)
    (clusterId : String) (tags : List (String × String)) (s : σ) (items : List ReportItem)
    (hreturned : (r.DeleteResourcesForCluster c clusterId tags false s).result =
      Outcome.returned (items, none)) :
    (∃ reads steps, RunsSteps r c clusterId tags false s reads steps ∧
      steps.length = (r.databasesToDelete c clusterId tags s).length ∧
      ∀ (i : Nat) db step, (r.databasesToDelete c clusterId tags s)[i]? = some db →
        steps[i]? = some step →
        StringValue db.DBInstanceStatus ≠ c.statusDeleting →
        step.trace.countP Call.isDelete = 1 ∧
        step.trace.countP Call.isModify =
          (if BoolValue db.DeletionProtection = true then 1 else 0)) ∧
    (r.DeleteResourcesForCluster c clusterId tags false s).trace.countP Call.isDelete =
      (r.databasesToDelete c clusterId tags s).countP
        (fun db => decide (StringValue db.DBInstanceStatus ≠ c.statusDeleting)) ∧
    (r.DeleteResourcesForCluster c clusterId tags false s).trace.countP Call.isModify =
      (r.databasesToDelete c clusterId tags s).countP
        (fun db => decide (StringValue db.DBInstanceStatus ≠ c.statusDeleting) &&
          BoolValue db.DeletionProtection) ∧
    ((fakeEngine.DeleteResourcesForCluster exampleConstants "abc"
        [("custodian", "true")] false fakeOne).trace.countP Call.isModify = 1 ∧
      (fakeEngine.DeleteResourcesForCluster exampleConstants "abc"
        [("custodian", "true")] false fakeOne).trace.countP Call.isDelete = 1 ∧
      (fakeEngine.DeleteResourcesForCluster exampleConstants "abc"
        [("custodian", "true")] false fakeOne).result =
        Outcome.returned ([⟨"arn:aws:rds:eu-west-1:1:db:db-one", "cluster-one",
          Action.Delete, ActionStatus.InProgress⟩], none)) := by
  obtain ⟨reads, steps, hruns⟩ := engine_runsSteps r c clusterId tags false s
  have hruns' := hruns
  obtain ⟨htrace, hreads, _, hsteps, hitems⟩ := hruns'
  obtain ⟨hlen, hmap⟩ := hitems items hreturned
  have hreadsDelete : reads.countP Call.isDelete = 0 := by
    rw [List.countP_eq_zero]
    intro call hcall hd
    have := hreads call hcall
    cases call <;> simp_all [Call.isDelete, Call.isMutating]
  have hreadsModify : reads.countP Call.isModify = 0 := by
    rw [List.countP_eq_zero]
    intro call hcall hd
    have := hreads call hcall
    cases call <;> simp_all [Call.isModify, Call.isMutating]
  refine ⟨⟨reads, steps, hruns, hlen, ?_⟩, ?_, ?_, by decide, by decide, by decide⟩
  · intro i db step hdb hi hlive
    obtain ⟨before, hbefore⟩ := hsteps i db step hdb hi
    obtain ⟨item, hitem⟩ := steps_went_on steps items hmap i step hi
    rw [hbefore] at hitem ⊢
    have := deleteStep_counts r.rdsClient c db before item hitem
    simpa [hlive] using this
  · rw [htrace, List.countP_append, hreadsDelete, Nat.zero_add,
      steps_counts r.rdsClient c _ steps items Call.isDelete
        (fun db => if decide (StringValue db.DBInstanceStatus ≠ c.statusDeleting) = true
          then 1 else 0) hlen hsteps hmap, sum_indicator]
    intro db before item hitem
    rw [(deleteStep_counts r.rdsClient c db before item hitem).1]
    by_cases hdel : StringValue db.DBInstanceStatus = c.statusDeleting <;> simp [hdel]
  · rw [htrace, List.countP_append, hreadsModify, Nat.zero_add,
      steps_counts r.rdsClient c _ steps items Call.isModify
        (fun db => if (decide (StringValue db.DBInstanceStatus ≠ c.statusDeleting) &&
          BoolValue db.DeletionProtection) = true then 1 else 0) hlen hsteps hmap,
      sum_indicator]
    intro db before item hitem
    rw [(deleteStep_counts r.rdsClient c db before item hitem).2]
    by_cases hdel : StringValue db.DBInstanceStatus = c.statusDeleting <;>
      cases BoolValue db.DeletionProtection <;> simp [hdel]

/-- C8 on the test double with three databases, where the run returns two items: one
deletion and one modification, for the one database to delete that is not already
deleting, which is protected. -/
theorem one_delete_per_live_instance_witness :
    ((fakeEngine.DeleteResourcesForCluster exampleConstants "abc"
        [("custodian", "true")] false fakeThree).result =
      Outcome.returned ([reportItemFor dbOne ActionStatus.InProgress,
        reportItemFor dbThree ActionStatus.InProgress], none)) ∧
    ((fakeEngine.DeleteResourcesForCluster exampleConstants "abc"
        [("custodian", "true")] false fakeThree).trace.countP Call.isDelete =
      (fakeEngine.databasesToDelete exampleConstants "abc"
        [("custodian", "true")] fakeThree).countP
        (fun db => decide (StringValue db.DBInstanceStatus ≠
          exampleConstants.statusDeleting))) ∧
    ((fakeEngine.DeleteResourcesForCluster exampleConstants "abc"
        [("custodian", "true")] false fakeThree).trace.countP Call.isDelete = 1) ∧
    ((fakeEngine.DeleteResourcesForCluster exampleConstants "abc"
        [("custodian", "true")] false fakeThree).trace.countP Call.isModify = 1) :=
  ⟨by decide,
    (one_delete_per_live_instance fakeEngine exampleConstants "abc"
      [("custodian", "true")] fakeThree
      [reportItemFor dbOne ActionStatus.InProgress,
        reportItemFor dbThree ActionStatus.InProgress] (by decide)).2.1,
    by decide, by decide⟩

/-- C9. When a tag lookup of a run comes back with an error, that lookup is the last call
of the run (so no tag lookup is issued for the instances listed after the failing one,
and nothing is modified or deleted) and the engine returns the nil item sequence
together with a non-nil error: the lookup's error, wrapped. The failing lookup at
position `j` of the trace is the lookup of the instance at position `j - 1` of the
listing. -/
theorem failed_tag_lookup_aborts {σ : Type} (r : RDSEngine σ) (c : Constants)
    (clusterId : String) (tags : List (String × String)) (dryRun : Bool) (s : σ)
    (j : Nat) (input : ListTagsForResourceInput) (output : Option ListTagsForResourceOutput)
    (err : Error)
    (hcall : (r.DeleteResourcesForCluster c clusterId tags dryRun s).trace[j]? =
      some (Call.ListTagsForResource input (output, some err))) :
    j + 1 = (r.DeleteResourcesForCluster c clusterId tags dryRun s).trace.length ∧
    (r.DeleteResourcesForCluster c clusterId tags dryRun s).result =
      Outcome.returned ([], some (WrapLog err "failed to list tags for database cluster")) ∧
    ∃ listing db, (r.rdsClient.DescribeDBInstances s ⟨none⟩).1 = (some listing, none) ∧
      1 ≤ j ∧ listing.DBInstances[j - 1]? = some (some db) ∧
      input = ⟨db.DBInstanceArn⟩ := by
  have herr : (Call.ListTagsForResource input (output, some err)).error = some err := rfl
  obtain ⟨hlast, _⟩ := engine_failed_call r c clusterId tags dryRun s j _ err hcall herr
  refine ⟨hlast, ?_⟩
  rcases hresp : (r.rdsClient.DescribeDBInstances s ⟨none⟩).1 with ⟨out, e⟩
  cases e with
  | some e =>
    have he : (r.rdsClient.DescribeDBInstances s ⟨none⟩).1.2 = some e := by rw [hresp]
    rw [engine_describe_failed r c clusterId tags dryRun s e he] at hcall
    cases j with
    | zero => simp at hcall
    | succ n => simp at hcall
  | none =>
    cases out with
    | none =>
      rw [engine_describe_nil r c clusterId tags dryRun s hresp] at hcall
      cases j with
      | zero => simp at hcall
      | succ n => simp at hcall
    | some listing =>
      rw [engine_listed r c clusterId tags dryRun s listing hresp] at hcall ⊢
      cases j with
      | zero =>
        exfalso
        have hhead : some (Call.DescribeDBInstances ⟨none⟩ (some listing, none)) =
            some (Call.ListTagsForResource input (output, some err)) := by
          rw [← hcall]
          split <;> simp
        simp at hhead
      | succ n =>
        cases hfilter : (filterLoop r.rdsClient c clusterId tags listing.DBInstances
            (r.rdsClient.DescribeDBInstances s ⟨none⟩).2).result with
        | panic =>
          rw [hfilter] at hcall
          simp only [List.getElem?_cons_succ] at hcall
          obtain ⟨_, hfail, _⟩ := filterLoop_failed_call r.rdsClient c clusterId tags _ _ n
            _ err hcall herr
          rw [hfail] at hfilter
          cases hfilter
        | fail e =>
          rw [hfilter] at hcall
          simp only [List.getElem?_cons_succ] at hcall ⊢
          obtain ⟨_, hfail, db, found, hdb, heq⟩ := filterLoop_failed_call r.rdsClient c
            clusterId tags _ _ n _ err hcall herr
          rw [hfail] at hfilter
          cases hfilter
          simp only [Call.ListTagsForResource.injEq] at heq
          exact ⟨rfl, listing, db, rfl, by omega, by simpa using hdb, heq.1⟩
        | next dbs =>
          rw [hfilter] at hcall
          simp only [List.getElem?_cons_succ] at hcall
          exfalso
          by_cases hn : n < (filterLoop r.rdsClient c clusterId tags listing.DBInstances
              (r.rdsClient.DescribeDBInstances s ⟨none⟩).2).trace.length
          · rw [List.getElem?_append_left hn] at hcall
            obtain ⟨_, hfail, _⟩ := filterLoop_failed_call r.rdsClient c clusterId tags _ _ n
              _ err hcall herr
            rw [hfail] at hfilter
            cases hfilter
          · rw [List.getElem?_append_right (Nat.le_of_not_lt hn)] at hcall
            have hmut := deleteLoop_mutating r.rdsClient c dryRun _ _ _
              (List.getElem?_mem hcall)
            simp [Call.isMutating] at hmut

/-- C9 on the test double with three databases that refuses the tag lookup of the
second: the run ends with that lookup, the third database is not looked up, and the
engine returns the wrapped error without items. -/
theorem failed_tag_lookup_aborts_witness :
    ((fakeEngine.DeleteResourcesForCluster exampleConstants "abc"
        [("custodian", "true")] false fakeThreeDenied).trace[2]? =
      some (Call.ListTagsForResource ⟨dbTwo.DBInstanceArn⟩
        (none, some (Error.raised "AccessDenied")))) ∧
    (2 + 1 = (fakeEngine.DeleteResourcesForCluster exampleConstants "abc"
        [("custodian", "true")] false fakeThreeDenied).trace.length ∧
      (fakeEngine.DeleteResourcesForCluster exampleConstants "abc"
        [("custodian", "true")] false fakeThreeDenied).result =
        Outcome.returned ([], some (WrapLog (Error.raised "AccessDenied")
          "failed to list tags for database cluster")) ∧
      ∃ listing db, (fakeEngine.rdsClient.DescribeDBInstances fakeThreeDenied ⟨none⟩).1 =
          (some listing, none) ∧
        1 ≤ 2 ∧ listing.DBInstances[2 - 1]? = some (some db) ∧
        (⟨dbTwo.DBInstanceArn⟩ : ListTagsForResourceInput) = ⟨db.DBInstanceArn⟩) :=
  ⟨by decide,
    failed_tag_lookup_aborts fakeEngine exampleConstants "abc" [("custodian", "true")] false
      fakeThreeDenied 2 ⟨dbTwo.DBInstanceArn⟩ none (Error.raised "AccessDenied") (by decide)⟩

/-- C10. With `dryRun = false`, a `ModifyDBInstance` or `DeleteDBInstance` call that comes
back with an error is the last call of the run: no call of any kind follows it (no
deletion of the instance whose protection could not be cleared, nothing for the later
instances), and the engine returns the nil item sequence together with that error,
wrapped. Whenever the engine returns an error, the item sequence is nil. -/
theorem failed_mutation_aborts {σ : Type} (r : RDSEngine σ) (c : Constants)
    (clusterId : String) (tags : List (String × String)) (s : σ) :
    (∀ (j : Nat) call err,
      (r.DeleteResourcesForCluster c clusterId tags false s).trace[j]? = some call →
      call.isMutating = true → call.error = some err →
      j + 1 = (r.DeleteResourcesForCluster c clusterId tags false s).trace.length ∧
      ∃ msg, (r.DeleteResourcesForCluster c clusterId tags false s).result =
        Outcome.returned ([], some (WrapLog err msg))) ∧
    (∀ items err, (r.DeleteResourcesForCluster c clusterId tags false s).result =
      Outcome.returned (items, some err) → items = []) :=
  ⟨fun j call err hcall _ herr =>
      engine_failed_call r c clusterId tags false s j call err hcall herr,
    fun items err h => engine_error_no_items r c clusterId tags false s items err h⟩

/-- C10 on two test doubles. When the modification of the protected database is refused,
the run ends with it, without a deletion. When the deletion of the first of two
databases is refused, the run ends with it, with no call for the second. Both runs
return the wrapped error without items. -/
theorem failed_mutation_aborts_witness :
    ((fakeEngine.DeleteResourcesForCluster exampleConstants "abc"
        [("custodian", "true")] false fakeOneLocked).trace.map
        (fun call => (call.isModify, call.isDelete, call.error)) =
      [(false, false, none), (false, false, none),
        (true, false, some (Error.raised "InvalidDBInstanceState"))]) ∧
    ((fakeEngine.DeleteResourcesForCluster exampleConstants "abc"
        [("custodian", "true")] false fakeOneLocked).result =
      Outcome.returned ([], some (WrapLog (Error.raised "InvalidDBInstanceState")
        "failed to remove instance protection on database"))) ∧
    (fakeEngine.databasesToDelete exampleConstants "abc" [("custodian", "true")]
        fakeTwoStuck = [dbOne, dbTwo]) ∧
    ((fakeEngine.DeleteResourcesForCluster exampleConstants "abc"
        [("custodian", "true")] false fakeTwoStuck).trace.map
        (fun call => (call.isModify, call.isDelete, call.error)) =
      [(false, false, none), (false, false, none), (false, false, none),
        (true, false, none), (false, true, some (Error.raised "InvalidDBInstanceState"))]) ∧
    ((fakeEngine.DeleteResourcesForCluster exampleConstants "abc"
        [("custodian", "true")] false fakeTwoStuck).result =
      Outcome.returned ([], some (WrapLog (Error.raised "InvalidDBInstanceState")
        "failed to delete rds instance"))) ∧
    (4 + 1 = (fakeEngine.DeleteResourcesForCluster exampleConstants "abc"
        [("custodian", "true")] false fakeTwoStuck).trace.length ∧
      ∃ msg, (fakeEngine.DeleteResourcesForCluster exampleConstants "abc"
        [("custodian", "true")] false fakeTwoStuck).result =
        Outcome.returned ([], some (WrapLog (Error.raised "InvalidDBInstanceState") msg))) :=
  ⟨by decide, by decide, by decide, by decide, by decide,
    (failed_mutation_aborts fakeEngine exampleConstants "abc" [("custodian", "true")]
      fakeTwoStuck).1 4
      (Call.DeleteDBInstance ⟨some "db-one", some true, some true⟩
        (none, some (Error.raised "InvalidDBInstanceState")))
      (Error.raised "InvalidDBInstanceState") (by decide) rfl rfl⟩

/-! ## Claims about the client -/

theorem engineLoop_clean {ω : Type} (clusterId : String) (tags : List (String × String))
    (dryRun : Bool) (engines : List (ActionEngine ω)) (index : Nat)
    (items : List ReportItem) (w : ω) (returned : List (List ReportItem)) (final : ω)
    (h : ReturnWithoutError clusterId tags dryRun engines w returned final) :
    (engineLoop clusterId tags dryRun index engines items w).result =
      Outcome.returned (some ⟨items ++ returned.flatten⟩, none) ∧
    (engineLoop clusterId tags dryRun index engines items w).state = final ∧
    (engineLoop clusterId tags dryRun index engines items w).trace.map
      (fun invocation => invocation.engine) = List.range' index engines.length ∧
    (∀ invocation ∈ (engineLoop clusterId tags dryRun index engines items w).trace,
      invocation.clusterId = clusterId ∧ invocation.tags = tags ∧
      invocation.dryRun = dryRun) ∧
    (engineLoop clusterId tags dryRun index engines items w).trace.map
      (fun invocation => invocation.response) =
      returned.map (fun found => Outcome.returned (found, none)) := by
  induction engines generalizing index items w returned with
  | nil =>
    obtain ⟨hr, hf⟩ := h
    subst hr hf
    simp [engineLoop]
  | cons engine rest ih =>
    obtain ⟨found, next, later, hcall, hr, hrest⟩ := h
    subst hr
    obtain ⟨h1, h2, h3, h4, h5⟩ := ih (index + 1) (items ++ found) next later hrest
    have hstep : engineLoop clusterId tags dryRun index (engine :: rest) items w =
        ⟨(engineLoop clusterId tags dryRun (index + 1) rest (items ++ found) next).result,
          (engineLoop clusterId tags dryRun (index + 1) rest (items ++ found) next).state,
          ⟨index, clusterId, tags, dryRun, Outcome.returned (found, none)⟩ ::
            (engineLoop clusterId tags dryRun (index + 1) rest (items ++ found) next).trace⟩ := by
      rw [engineLoop]
      simp only [hcall]
    rw [hstep]
    refine ⟨by simp [h1], h2, by simp [h3, List.range'], ?_, by simp [h5]⟩
    intro invocation hin
    rcases List.mem_cons.mp hin with heq | hmem
    · subst heq
      exact ⟨rfl, rfl, rfl⟩
    · exact h4 invocation hmem

theorem engineLoop_first_error {ω : Type} (clusterId : String)
    (tags : List (String × String)) (dryRun : Bool) (before : List (ActionEngine ω))
    (failing : ActionEngine ω) (after : List (ActionEngine ω)) (index : Nat)
    (items : List ReportItem) (w : ω) (returned : List (List ReportItem)) (reached : ω)
    (found : List ReportItem) (err : Error) (final : ω)
    (hbefore : ReturnWithoutError clusterId tags dryRun before w returned reached)
    (hfailing : failing.DeleteResourcesForCluster clusterId tags dryRun reached =
      (Outcome.returned (found, some err), final)) :
    (engineLoop clusterId tags dryRun index (before ++ failing :: after) items w).result =
      Outcome.returned (none, some (WrapLog err "failed to run engine")) ∧
    (engineLoop clusterId tags dryRun index (before ++ failing :: after) items w).state =
      final ∧
    (engineLoop clusterId tags dryRun index (before ++ failing :: after) items w).trace.map
      (fun invocation => invocation.engine) = List.range' index (before.length + 1) ∧
    (∀ invocation ∈
        (engineLoop clusterId tags dryRun index (before ++ failing :: after) items w).trace,
      invocation.clusterId = clusterId ∧ invocation.tags = tags ∧
      invocation.dryRun = dryRun) := by
  induction before generalizing index items w returned with
  | nil =>
    obtain ⟨_, hf⟩ := hbefore
    rw [hf] at hfailing
    have hstep : engineLoop clusterId tags dryRun index ([] ++ failing :: after) items w =
        ⟨Outcome.returned (none, some (WrapLog err "failed to run engine")), final,
          [⟨index, clusterId, tags, dryRun, Outcome.returned (found, some err)⟩]⟩ := by
      rw [List.nil_append, engineLoop]
      simp only [hfailing]
    rw [hstep]
    refine ⟨rfl, rfl, by simp [List.range'], ?_⟩
    intro invocation hin
    rw [List.mem_singleton] at hin
    subst hin
    exact ⟨rfl, rfl, rfl⟩
  | cons engine rest ih =>
    obtain ⟨got, next, later, hcall, _, hrest⟩ := hbefore
    obtain ⟨h1, h2, h3, h4⟩ := ih (index + 1) (items ++ got) next later hrest
    have hstep : engineLoop clusterId tags dryRun index
        ((engine :: rest) ++ failing :: after) items w =
        ⟨(engineLoop clusterId tags dryRun (index + 1) (rest ++ failing :: after)
            (items ++ got) next).result,
          (engineLoop clusterId tags dryRun (index + 1) (rest ++ failing :: after)
            (items ++ got) next).state,
          ⟨index, clusterId, tags, dryRun, Outcome.returned (got, none)⟩ ::
            (engineLoop clusterId tags dryRun (index + 1) (rest ++ failing :: after)
              (items ++ got) next).trace⟩ := by
      rw [List.cons_append, engineLoop]
      simp only [hcall]
    rw [hstep]
    refine ⟨h1, h2, by simp [h3, List.range'], ?_⟩
    intro invocation hin
    rcases List.mem_cons.mp hin with heq | hmem
    · subst heq
      exact ⟨rfl, rfl, rfl⟩
    · exact h4 invocation hmem

/-- C3. When the engines before engine `failing` each return without error and `failing`
returns an error, `Client.DeleteResourcesForCluster` returns the nil report together with
a non-nil error (that error, wrapped): the items collected from the earlier engines, and
any items the failing engine returned, are dropped. The engines invoked are those up to
and including `failing`, once each, in registration order, with the caller's arguments;
the engines after it are not invoked, and the state is the one `failing` left. -/
theorem Client_fails_fast {ω : Type} (before : List (ActionEngine ω))
    (failing : ActionEngine ω) (after : List (ActionEngine ω)) (clusterId : String)
    (tags : List (String × String)) (dryRun : Bool) (w : ω)
    (returned : List (List ReportItem)) (reached : ω) (found : List ReportItem)
    (err : Error) (final : ω)
    (hbefore : ReturnWithoutError clusterId tags dryRun before w returned reached)
    (hfailing : failing.DeleteResourcesForCluster clusterId tags dryRun reached =
      (Outcome.returned (found, some err), final)) :
    ((⟨before ++ failing :: after⟩ : Client ω).DeleteResourcesForCluster clusterId tags
        dryRun w).result =
      Outcome.returned (none, some (WrapLog err "failed to run engine")) ∧
    ((⟨before ++ failing :: after⟩ : Client ω).DeleteResourcesForCluster clusterId tags
        dryRun w).state = final ∧
    ((⟨before ++ failing :: after⟩ : Client ω).DeleteResourcesForCluster clusterId tags
        dryRun w).trace.map (fun invocation => invocation.engine) =
      List.range (before.length + 1) ∧
    (∀ invocation ∈ ((⟨before ++ failing :: after⟩ : Client ω).DeleteResourcesForCluster
        clusterId tags dryRun w).trace,
      invocation.clusterId = clusterId ∧ invocation.tags = tags ∧
      invocation.dryRun = dryRun) := by
  have h := engineLoop_first_error clusterId tags dryRun before failing after 0 [] w
    returned reached found err final hbefore hfailing
  rw [← List.range_eq_range'] at h
  exact h

/-- C3 on a client of three counting engines whose second returns an item and an error:
two engines ran, the third did not, and the result is the nil report with the wrapped
error. -/
theorem Client_fails_fast_witness :
    ReturnWithoutError "abc" [("custodian", "true")] false
      [countingEngine "first" [itemA] none] 0 [[itemA]] 1 ∧
    (countingEngine "second" [itemB] (some (Error.raised "boom"))).DeleteResourcesForCluster
      "abc" [("custodian", "true")] false 1 =
      (Outcome.returned ([itemB], some (Error.raised "boom")), 2) ∧
    (clientFailingSecond.DeleteResourcesForCluster "abc" [("custodian", "true")] false 0).result =
      Outcome.returned (none, some (Error.wrapped (Error.raised "boom") "failed to run engine")) ∧
    (clientFailingSecond.DeleteResourcesForCluster "abc" [("custodian", "true")] false 0).state =
      2 ∧
    (clientFailingSecond.DeleteResourcesForCluster "abc" [("custodian", "true")] false
      0).trace.map (fun invocation => invocation.engine) = [0, 1] :=
  ⟨⟨[itemA], 1, [], rfl, rfl, rfl, rfl⟩, rfl,
    (Client_fails_fast [countingEngine "first" [itemA] none]
      (countingEngine "second" [itemB] (some (Error.raised "boom")))
      [countingEngine "third" [itemB] none] "abc" [("custodian", "true")] false 0
      [[itemA]] 1 [itemB] (Error.raised "boom") 2
      ⟨[itemA], 1, [], rfl, rfl, rfl, rfl⟩ rfl).1,
    by decide, by decide⟩

/-- C4. When every engine, started in the state its predecessor left, returns without
error, `Client.DeleteResourcesForCluster` returns the nil error and a report whose items
are the engines' item sequences appended in registration order, each sequence as it was
returned (nothing dropped, nothing deduplicated). Every engine is invoked exactly once,
in registration order, with the caller's `clusterId`, `tags` and `dryRun`. -/
theorem Client_concatenates_reports {ω : Type} (c : Client ω) (clusterId : String)
    (tags : List (String × String)) (dryRun : Bool) (w : ω)
    (returned : List (List ReportItem)) (final : ω)
    (hall : ReturnWithoutError clusterId tags dryRun c.actionEngines w returned final) :
    (c.DeleteResourcesForCluster clusterId tags dryRun w).result =
      Outcome.returned (some ⟨returned.flatten⟩, none) ∧
    (c.DeleteResourcesForCluster clusterId tags dryRun w).state = final ∧
    (c.DeleteResourcesForCluster clusterId tags dryRun w).trace.map
      (fun invocation => invocation.engine) = List.range c.actionEngines.length ∧
    (∀ invocation ∈ (c.DeleteResourcesForCluster clusterId tags dryRun w).trace,
      invocation.clusterId = clusterId ∧ invocation.tags = tags ∧
      invocation.dryRun = dryRun) ∧
    (c.DeleteResourcesForCluster clusterId tags dryRun w).trace.map
      (fun invocation => invocation.response) =
      returned.map (fun found => Outcome.returned (found, none)) := by
  have h := engineLoop_clean clusterId tags dryRun c.actionEngines 0 [] w returned final hall
  rw [← List.range_eq_range', List.nil_append] at h
  exact h

/-- C4 on a client of three counting engines: the report holds the items of the first
engine, nothing for the second, and the item of the third although the first returned it
already. -/
theorem Client_concatenates_reports_witness :
    ReturnWithoutError "abc" [("custodian", "true")] true clientAllFine.actionEngines 0
      [[itemA, itemB], [], [itemA]] 3 ∧
    (clientAllFine.DeleteResourcesForCluster "abc" [("custodian", "true")] true 0).result =
      Outcome.returned (some ⟨[itemA, itemB, itemA]⟩, none) ∧
    (clientAllFine.DeleteResourcesForCluster "abc" [("custodian", "true")] true 0).trace.map
      (fun invocation => invocation.engine) = [0, 1, 2] :=
  ⟨⟨[itemA, itemB], 1, [[], [itemA]], rfl, rfl, [], 2, [[itemA]], rfl, rfl,
      [itemA], 3, [], rfl, rfl, rfl, rfl⟩,
    (Client_concatenates_reports clientAllFine "abc" [("custodian", "true")] true 0
      [[itemA, itemB], [], [itemA]] 3
      ⟨[itemA, itemB], 1, [[], [itemA]], rfl, rfl, [], 2, [[itemA]], rfl, rfl,
        [itemA], 3, [], rfl, rfl, rfl, rfl⟩).1,
    by decide⟩

/-! ## What the items are -/

theorem deleteStep_went_on {σ : Type} (api : RDSAPI σ) (c : Constants) (dryRun : Bool)
    (db : DBInstance) (s : σ) (item : ReportItem)
    (h : (deleteStep api c dryRun db s).result = Flow.next item) :
    item = reportItemFor db (finalStatus dryRun) := by
  cases dryRun with
  | true =>
    rw [deleteStep_dryRun] at h
    simp only [Flow.next.injEq] at h
    exact h.symm
  | false =>
    by_cases hdel : StringValue db.DBInstanceStatus = c.statusDeleting
    · rw [deleteStep_deleting api c db s hdel] at h
      simp only [Flow.next.injEq] at h
      exact h.symm
    · cases hprot : BoolValue db.DeletionProtection with
      | false =>
        rw [deleteStep_unprotected api c db s hdel hprot] at h
        simp only at h
        split at h
        · cases h
        · simp only [Flow.next.injEq] at h
          exact h.symm
      | true =>
        rw [deleteStep_protected api c db s hdel hprot] at h
        generalize (api.ModifyDBInstance s ⟨db.DBInstanceIdentifier, some false⟩) = resp at h
        rcases resp with ⟨⟨output, e⟩, s1⟩
        rcases output with _ | ⟨⟨_ | current⟩⟩ <;> cases e <;> simp only at h
        all_goals first
          | exact Flow.noConfusion h
          | (split at h
             · cases h
             · simp only [Flow.next.injEq] at h
               exact h.symm)

theorem engine_items {σ : Type} (r : RDSEngine σ) (c : Constants) (clusterId : String)
    (tags : List (String × String)) (dryRun : Bool) (s : σ) (items : List ReportItem)
    (h : (r.DeleteResourcesForCluster c clusterId tags dryRun s).result =
      Outcome.returned (items, none)) :
    items = (r.databasesToDelete c clusterId tags s).map
      (fun db => reportItemFor db (finalStatus dryRun)) := by
  obtain ⟨reads, steps, _, _, _, hsteps, hitems⟩ := engine_runsSteps r c clusterId tags dryRun s
  obtain ⟨hlen, hmap⟩ := hitems items h
  have hlens : items.length = steps.length := by
    have := congrArg List.length hmap
    simpa using this.symm
  apply List.ext_getElem?
  intro i
  rw [List.getElem?_map]
  cases hdb : (r.databasesToDelete c clusterId tags s)[i]? with
  | none =>
    have hge : items.length ≤ i := by
      rw [hlens, hlen]
      exact List.getElem?_eq_none_iff.mp hdb
    rw [List.getElem?_eq_none hge]
    rfl
  | some db =>
    have hlt : i < steps.length := by
      rw [hlen]
      rcases List.getElem?_eq_some.mp hdb with ⟨hlt, _⟩
      exact hlt
    have hi : steps[i]? = some (steps.get ⟨i, hlt⟩) := List.getElem?_eq_getElem hlt
    obtain ⟨before, hbefore⟩ := hsteps i db _ hdb hi
    have hat := congrArg (fun l => l[i]?) hmap
    simp only [List.getElem?_map, hi, Option.map_some'] at hat
    cases hitem : items[i]? with
    | none => rw [hitem] at hat; simp at hat
    | some item =>
      rw [hitem] at hat
      simp only [Option.map_some', Option.some.injEq] at hat
      rw [hbefore] at hat
      rw [deleteStep_went_on r.rdsClient c dryRun db before item hat]
      rfl

/-! ## What the instances to delete are -/

theorem extraTagsMatch_true_iff (tagList : List (Option Tag)) (tags : List (String × String)) :
    extraTagsMatch tagList tags = Outcome.returned true ↔
      ∀ pair ∈ tags, ∃ tag, findTag pair.1 pair.2 tagList = Outcome.returned (some tag) := by
  induction tags with
  | nil => simp [extraTagsMatch]
  | cons pair rest ih =>
    obtain ⟨k, v⟩ := pair
    simp only [extraTagsMatch, List.mem_cons, forall_eq_or_imp]
    cases hf : findTag k v tagList with
    | panic => simp
    | returned found =>
      cases found with
      | none => simp
      | some tag => simp [ih]

theorem filterStep_kept_iff {σ : Type} (api : RDSAPI σ) (c : Constants) (clusterId : String)
    (tags : List (String × String)) (db : DBInstance) (s : σ)
    (output : ListTagsForResourceOutput)
    (h : (api.ListTagsForResource s ⟨db.DBInstanceArn⟩).1 = (some output, none)) :
    (filterStep api c clusterId tags (some db) s).result = Flow.next (some db) ↔
      (∃ tag, findTag c.tagKeyClusterId clusterId output.TagList =
        Outcome.returned (some tag)) ∧
      ∀ pair ∈ tags, ∃ tag,
        findTag pair.1 pair.2 output.TagList = Outcome.returned (some tag) := by
  rw [← extraTagsMatch_true_iff]
  unfold filterStep
  simp only [h]
  cases hf : findTag c.tagKeyClusterId clusterId output.TagList with
  | panic => simp
  | returned found =>
    cases found with
    | none => simp
    | some tag =>
      simp only
      cases hx : extraTagsMatch output.TagList tags with
      | panic => simp
      | returned b => cases b <;> simp

theorem filterStep_kept {σ : Type} (api : RDSAPI σ) (c : Constants) (clusterId : String)
    (tags : List (String × String)) (dbInstance : Option DBInstance) (s : σ)
    (db : DBInstance)
    (h : (filterStep api c clusterId tags dbInstance s).result = Flow.next (some db)) :
    dbInstance = some db ∧
    ∃ output, (api.ListTagsForResource s ⟨db.DBInstanceArn⟩).1 = (some output, none) ∧
      (∃ tag, findTag c.tagKeyClusterId clusterId output.TagList =
        Outcome.returned (some tag)) ∧
      ∀ pair ∈ tags, ∃ tag,
        findTag pair.1 pair.2 output.TagList = Outcome.returned (some tag) := by
  cases dbInstance with
  | none => simp [filterStep] at h
  | some listed =>
    rcases hresp : (api.ListTagsForResource s ⟨listed.DBInstanceArn⟩).1 with ⟨output, err⟩
    cases err with
    | some e =>
      have he : (api.ListTagsForResource s ⟨listed.DBInstanceArn⟩).1.2 = some e := by
        rw [hresp]
      rw [filterStep_failed api c clusterId tags listed s e he] at h
      cases h
    | none =>
      cases output with
      | none =>
        unfold filterStep at h
        simp [hresp] at h
      | some out =>
        have hsame : listed = db := by
          unfold filterStep at h
          simp only [hresp] at h
          split at h
          · cases h
          · simp at h
          · split at h
            · cases h
            · simp at h
            · simp only [Flow.next.injEq, Option.some.injEq] at h
              exact h
        subst hsame
        exact ⟨rfl, out, hresp,
          (filterStep_kept_iff api c clusterId tags listed s out hresp).mp h⟩

theorem filterLoop_kept {σ : Type} (api : RDSAPI σ) (c : Constants) (clusterId : String)
    (tags : List (String × String)) (dbs : List (Option DBInstance)) (s : σ)
    (kept : List DBInstance)
    (h : (filterLoop api c clusterId tags dbs s).result = Flow.next kept) :
    ∀ db ∈ kept, some db ∈ dbs ∧
      ∃ before output,
        (api.ListTagsForResource before ⟨db.DBInstanceArn⟩).1 = (some output, none) ∧
        (∃ tag, findTag c.tagKeyClusterId clusterId output.TagList =
          Outcome.returned (some tag)) ∧
        ∀ pair ∈ tags, ∃ tag,
          findTag pair.1 pair.2 output.TagList = Outcome.returned (some tag) := by
  induction dbs generalizing s kept with
  | nil =>
    simp only [filterLoop, Flow.next.injEq] at h
    subst h
    intro db hdb
    simp at hdb
  | cons dbInstance rest ih =>
    cases hres : (filterStep api c clusterId tags dbInstance s).result with
    | panic =>
      rw [filterLoop_cons_panic api c clusterId tags dbInstance rest s hres] at h
      cases h
    | fail e =>
      rw [filterLoop_cons_fail api c clusterId tags dbInstance rest s e hres] at h
      cases h
    | next first =>
      rw [filterLoop_cons_next api c clusterId tags dbInstance rest s first hres] at h
      simp only at h
      cases hlater : (filterLoop api c clusterId tags rest
          (filterStep api c clusterId tags dbInstance s).state).result with
      | panic => rw [hlater] at h; simp [Flow.map] at h
      | fail e => rw [hlater] at h; simp [Flow.map] at h
      | next later =>
        rw [hlater] at h
        simp only [Flow.map, Flow.next.injEq] at h
        subst h
        intro db hdb
        rcases List.mem_append.mp hdb with hfirst | hrest
        · cases first with
          | none => simp at hfirst
          | some found =>
            simp only [Option.toList, List.mem_singleton] at hfirst
            subst hfirst
            obtain ⟨hlisted, output, hout, hc, hx⟩ :=
              filterStep_kept api c clusterId tags dbInstance s db hres
            exact ⟨by rw [hlisted]; exact List.mem_cons_self _ _, s, output, hout, hc, hx⟩
        · obtain ⟨hin, found⟩ := ih _ later hlater db hrest
          exact ⟨List.mem_cons_of_mem _ hin, found⟩

theorem databasesToDelete_listed {σ : Type} (r : RDSEngine σ) (c : Constants)
    (clusterId : String) (tags : List (String × String)) (s : σ) :
    ∀ db ∈ r.databasesToDelete c clusterId tags s,
      ∃ listing, (r.rdsClient.DescribeDBInstances s ⟨none⟩).1 = (some listing, none) ∧
        some db ∈ listing.DBInstances ∧
        ∃ before output,
          (r.rdsClient.ListTagsForResource before ⟨db.DBInstanceArn⟩).1 =
            (some output, none) ∧
          (∃ tag, findTag c.tagKeyClusterId clusterId output.TagList =
            Outcome.returned (some tag)) ∧
          ∀ pair ∈ tags, ∃ tag,
            findTag pair.1 pair.2 output.TagList = Outcome.returned (some tag) := by
  intro db hdb
  unfold RDSEngine.databasesToDelete at hdb
  rcases hresp : (r.rdsClient.DescribeDBInstances s ⟨none⟩).1 with ⟨output, err⟩
  rw [hresp] at hdb
  cases err with
  | some e => cases output <;> simp at hdb
  | none =>
    cases output with
    | none => simp at hdb
    | some listing =>
      simp only at hdb
      cases hfilter : (filterLoop r.rdsClient c clusterId tags listing.DBInstances
          (r.rdsClient.DescribeDBInstances s ⟨none⟩).2).result with
      | panic => rw [hfilter] at hdb; simp at hdb
      | fail e => rw [hfilter] at hdb; simp at hdb
      | next kept =>
        rw [hfilter] at hdb
        simp only at hdb
        obtain ⟨hin, found⟩ := filterLoop_kept r.rdsClient c clusterId tags _ _ kept hfilter
          db hdb
        exact ⟨listing, rfl, hin, found⟩

/-! ## The provider state -/

theorem filterStep_state_observed {σ : Type} (api : RDSAPI σ) (c : Constants)
    (clusterId : String) (tags : List (String × String)) (dbInstance : Option DBInstance)
    (s : σ) (hreads : ReadsObserve api) :
    (filterStep api c clusterId tags dbInstance s).state = s := by
  cases dbInstance with
  | none => rfl
  | some db =>
    rw [(filterStep_trace api c clusterId tags db s).2]
    exact hreads.2 s _

theorem filterLoop_state_observed {σ : Type} (api : RDSAPI σ) (c : Constants)
    (clusterId : String) (tags : List (String × String)) (dbs : List (Option DBInstance))
    (s : σ) (hreads : ReadsObserve api) :
    (filterLoop api c clusterId tags dbs s).state = s := by
  induction dbs generalizing s with
  | nil => rfl
  | cons dbInstance rest ih =>
    have hstep := filterStep_state_observed api c clusterId tags dbInstance s hreads
    cases hres : (filterStep api c clusterId tags dbInstance s).result with
    | panic =>
      rw [filterLoop_cons_panic api c clusterId tags dbInstance rest s hres]
      exact hstep
    | fail e =>
      rw [filterLoop_cons_fail api c clusterId tags dbInstance rest s e hres]
      exact hstep
    | next kept =>
      rw [filterLoop_cons_next api c clusterId tags dbInstance rest s kept hres]
      simp only
      rw [ih, hstep]

theorem deleteStep_state_of_no_call {σ : Type} (api : RDSAPI σ) (c : Constants)
    (dryRun : Bool) (db : DBInstance) (s : σ)
    (h : (deleteStep api c dryRun db s).trace = []) :
    (deleteStep api c dryRun db s).state = s := by
  cases dryRun with
  | true => rw [deleteStep_dryRun]
  | false =>
    by_cases hdel : StringValue db.DBInstanceStatus = c.statusDeleting
    · rw [deleteStep_deleting api c db s hdel]
    · exfalso
      cases hprot : BoolValue db.DeletionProtection with
      | false =>
        rw [deleteStep_unprotected api c db s hdel hprot] at h
        simp at h
      | true =>
        rw [deleteStep_protected api c db s hdel hprot] at h
        split at h <;> simp at h

theorem deleteLoop_state_of_no_call {σ : Type} (api : RDSAPI σ) (c : Constants)
    (dryRun : Bool) (dbs : List DBInstance) (s : σ)
    (h : (deleteLoop api c dryRun dbs s).trace = []) :
    (deleteLoop api c dryRun dbs s).state = s := by
  induction dbs generalizing s with
  | nil => rfl
  | cons db rest ih =>
    cases hres : (deleteStep api c dryRun db s).result with
    | panic =>
      rw [deleteLoop_cons_panic api c dryRun db rest s hres] at h ⊢
      exact deleteStep_state_of_no_call api c dryRun db s h
    | fail e =>
      rw [deleteLoop_cons_fail api c dryRun db rest s e hres] at h ⊢
      exact deleteStep_state_of_no_call api c dryRun db s h
    | next item =>
      rw [deleteLoop_cons_next api c dryRun db rest s item hres] at h ⊢
      simp only [List.append_eq_nil] at h
      simp only
      rw [ih _ h.2, deleteStep_state_of_no_call api c dryRun db s h.1]

theorem engine_state_of_reads_only {σ : Type} (r : RDSEngine σ) (c : Constants)
    (clusterId : String) (tags : List (String × String)) (dryRun : Bool) (s : σ)
    (hreads : ReadsObserve r.rdsClient)
    (honly : ∀ call ∈ (r.DeleteResourcesForCluster c clusterId tags dryRun s).trace,
      call.isMutating = false) :
    (r.DeleteResourcesForCluster c clusterId tags dryRun s).state = s := by
  rcases hresp : (r.rdsClient.DescribeDBInstances s ⟨none⟩).1 with ⟨output, e⟩
  have hdescribe := hreads.1 s ⟨none⟩
  cases e with
  | some e =>
    have he : (r.rdsClient.DescribeDBInstances s ⟨none⟩).1.2 = some e := by rw [hresp]
    rw [engine_describe_failed r c clusterId tags dryRun s e he]
    exact hdescribe
  | none =>
    cases output with
    | none =>
      rw [engine_describe_nil r c clusterId tags dryRun s hresp]
      exact hdescribe
    | some listing =>
      rw [engine_listed r c clusterId tags dryRun s listing hresp] at honly ⊢
      have hfilter := filterLoop_state_observed r.rdsClient c clusterId tags
        listing.DBInstances (r.rdsClient.DescribeDBInstances s ⟨none⟩).2 hreads
      cases hres : (filterLoop r.rdsClient c clusterId tags listing.DBInstances
          (r.rdsClient.DescribeDBInstances s ⟨none⟩).2).result with
      | panic =>
        simp only
        rw [hfilter, hdescribe]
      | fail e =>
        simp only
        rw [hfilter, hdescribe]
      | next dbs =>
        rw [hres] at honly
        simp only at honly ⊢
        have hnone : (deleteLoop r.rdsClient c dryRun dbs
            (filterLoop r.rdsClient c clusterId tags listing.DBInstances
              (r.rdsClient.DescribeDBInstances s ⟨none⟩).2).state).trace = [] := by
          apply List.eq_nil_iff_forall_not_mem.mpr
          intro call hcall
          have h1 := deleteLoop_mutating r.rdsClient c dryRun _ _ call hcall
          have h2 := honly call (List.mem_cons_of_mem _ (List.mem_append_right _ hcall))
          rw [h1] at h2
          cases h2
        rw [deleteLoop_state_of_no_call r.rdsClient c dryRun dbs _ hnone, hfilter, hdescribe]

theorem engine_dryRun_reads_only {σ : Type} (r : RDSEngine σ) (c : Constants)
    (clusterId : String) (tags : List (String × String)) (s : σ) :
    ∀ call ∈ (r.DeleteResourcesForCluster c clusterId tags true s).trace,
      call.isMutating = false := by
  obtain ⟨reads, steps, htrace, hreads, hlen, hsteps, _⟩ :=
    engine_runsSteps r c clusterId tags true s
  intro call hcall
  rw [htrace] at hcall
  rcases List.mem_append.mp hcall with h | h
  · exact hreads call h
  · exfalso
    obtain ⟨segment, hseg, hin⟩ := List.mem_flatten.mp h
    obtain ⟨step, hstep, rfl⟩ := List.mem_map.mp hseg
    obtain ⟨i, hi⟩ := List.getElem?_of_mem hstep
    have hlt : i < steps.length := by
      rcases List.getElem?_eq_some.mp hi with ⟨hlt, _⟩
      exact hlt
    obtain ⟨db, hdb⟩ : ∃ db, (r.databasesToDelete c clusterId tags s)[i]? = some db :=
      ⟨_, List.getElem?_eq_getElem (Nat.lt_of_lt_of_le hlt hlen)⟩
    obtain ⟨before, hbefore⟩ := hsteps i db step hdb hi
    rw [hbefore, deleteStep_dryRun] at hin
    simp at hin

theorem engine_two_phase {σ : Type} (r : RDSEngine σ) (c : Constants)
    (clusterId : String) (tags : List (String × String)) (dryRun : Bool) (s : σ) :
    ∃ reads mutations,
      (r.DeleteResourcesForCluster c clusterId tags dryRun s).trace = reads ++ mutations ∧
      (∀ call ∈ reads, call.isMutating = false) ∧
      (∀ call ∈ mutations, call.isMutating = true) := by
  obtain ⟨reads, steps, htrace, hreads, hlen, hsteps, _⟩ :=
    engine_runsSteps r c clusterId tags dryRun s
  refine ⟨reads, _, htrace, hreads, ?_⟩
  intro call h
  obtain ⟨segment, hseg, hin⟩ := List.mem_flatten.mp h
  obtain ⟨step, hstep, rfl⟩ := List.mem_map.mp hseg
  obtain ⟨i, hi⟩ := List.getElem?_of_mem hstep
  have hlt : i < steps.length := by
    rcases List.getElem?_eq_some.mp hi with ⟨hlt, _⟩
    exact hlt
  obtain ⟨db, hdb⟩ : ∃ db, (r.databasesToDelete c clusterId tags s)[i]? = some db :=
    ⟨_, List.getElem?_eq_getElem (Nat.lt_of_lt_of_le hlt hlen)⟩
  obtain ⟨before, hbefore⟩ := hsteps i db step hdb hi
  rw [hbefore] at hin
  exact deleteStep_mutating r.rdsClient c dryRun db before call hin

theorem Fake_readsObserve : ReadsObserve Fake.api := by
  refine ⟨fun s input => rfl, fun s input => ?_⟩
  unfold Fake.api
  simp only
  split
  · rfl
  · split <;> rfl

/-! ## Claims about the items and the phases -/

/-- C11. What the code does: every item the engine returns is built from an instance to
delete, with `ID` the ARN of the instance and `Action` equal to `Delete`, but with `Name`
read from `DBClusterIdentifier` (the identifier of the DB cluster the instance belongs
to), not from `DBInstanceIdentifier`. On the spec's example the item is named
`cluster-one` while the database is `db-one`; a database outside any DB cluster
(`db-two`) gets the empty name. -/
theorem reportItem_name_from_cluster_identifier {σ : Type} (r : RDSEngine σ)
    (c : Constants) (clusterId : String) (tags : List (String × String)) (dryRun : Bool)
    (s : σ) (items : List ReportItem)
    (hreturned : (r.DeleteResourcesForCluster c clusterId tags dryRun s).result =
      Outcome.returned (items, none)) :
    (∀ item ∈ items, ∃ db ∈ r.databasesToDelete c clusterId tags s,
      item.ID = StringValue db.DBInstanceArn ∧
      item.Name = StringValue db.DBClusterIdentifier ∧
      item.Action = Action.Delete) ∧
    ((fakeEngine.DeleteResourcesForCluster exampleConstants "abc"
        [("custodian", "true")] false fakeOne).result =
      Outcome.returned ([⟨"arn:aws:rds:eu-west-1:1:db:db-one", "cluster-one",
        Action.Delete, ActionStatus.InProgress⟩], none) ∧
      dbOne.DBInstanceIdentifier = some "db-one") ∧
    ((fakeEngine.DeleteResourcesForCluster exampleConstants "abc"
        [("custodian", "true")] false fakeStandalone).result =
      Outcome.returned ([⟨"arn:aws:rds:eu-west-1:1:db:db-two", "",
        Action.Delete, ActionStatus.InProgress⟩], none) ∧
      dbTwo.DBInstanceIdentifier = some "db-two") := by
  refine ⟨?_, ⟨by decide, rfl⟩, ⟨by decide, rfl⟩⟩
  rw [engine_items r c clusterId tags dryRun s items hreturned]
  intro item hitem
  obtain ⟨db, hdb, rfl⟩ := List.mem_map.mp hitem
  exact ⟨db, hdb, rfl, rfl, rfl⟩

/-- C11 on the test double with three databases: the two items carry the ARN, the
cluster identifier (empty for the third database) and the action `Delete`. -/
theorem reportItem_name_from_cluster_identifier_witness :
    ((fakeEngine.DeleteResourcesForCluster exampleConstants "abc"
        [("custodian", "true")] true fakeThree).result =
      Outcome.returned ([⟨"arn:aws:rds:eu-west-1:1:db:db-one", "cluster-one",
          Action.Delete, ActionStatus.DryRun⟩,
        ⟨"arn:aws:rds:eu-west-1:1:db:db-three", "", Action.Delete, ActionStatus.DryRun⟩],
        none)) ∧
    (∀ item ∈ [reportItemFor dbOne ActionStatus.DryRun,
        reportItemFor dbThree ActionStatus.DryRun],
      ∃ db ∈ fakeEngine.databasesToDelete exampleConstants "abc"
          [("custodian", "true")] fakeThree,
        item.ID = StringValue db.DBInstanceArn ∧
        item.Name = StringValue db.DBClusterIdentifier ∧
        item.Action = Action.Delete) :=
  ⟨by decide,
    (reportItem_name_from_cluster_identifier fakeEngine exampleConstants "abc"
      [("custodian", "true")] true fakeThree
      [reportItemFor dbOne ActionStatus.DryRun, reportItemFor dbThree ActionStatus.DryRun]
      (by decide)).1⟩

/-- C13. When the listing and the tag lookup leave the provider state as it is, a dry
run leaves the state as it was, so a second dry run right after the first gives the same
result, with the same item sequence. Every item a dry run returns has status
`DryRun`. -/
theorem dryRun_twice_same_items {σ : Type} (r : RDSEngine σ) (c : Constants)
    (clusterId : String) (tags : List (String × String)) (s : σ)
    (hreads : ReadsObserve r.rdsClient) :
    (r.DeleteResourcesForCluster c clusterId tags true s).state = s ∧
    (r.DeleteResourcesForCluster c clusterId tags true
      (r.DeleteResourcesForCluster c clusterId tags true s).state).result =
      (r.DeleteResourcesForCluster c clusterId tags true s).result ∧
    (∀ items err, (r.DeleteResourcesForCluster c clusterId tags true s).result =
      Outcome.returned (items, err) →
      ∀ item ∈ items, item.ActionStatus = ActionStatus.DryRun) := by
  have hstate := engine_state_of_reads_only r c clusterId tags true s hreads
    (engine_dryRun_reads_only r c clusterId tags s)
  refine ⟨hstate, by rw [hstate], ?_⟩
  intro items err hres item hitem
  cases err with
  | some e =>
    rw [engine_error_no_items r c clusterId tags true s items e hres] at hitem
    simp at hitem
  | none =>
    rw [engine_items r c clusterId tags true s items hres] at hitem
    obtain ⟨db, _, rfl⟩ := List.mem_map.mp hitem
    rfl

/-- C13 on the test double with three databases: two dry runs in a row return the same
two items, both in status `DryRun`. -/
theorem dryRun_twice_same_items_witness :
    ReadsObserve fakeEngine.rdsClient ∧
    ((fakeEngine.DeleteResourcesForCluster exampleConstants "abc"
        [("custodian", "true")] true fakeThree).result =
      Outcome.returned ([reportItemFor dbOne ActionStatus.DryRun,
        reportItemFor dbThree ActionStatus.DryRun], none)) ∧
    ((fakeEngine.DeleteResourcesForCluster exampleConstants "abc" [("custodian", "true")]
        true (fakeEngine.DeleteResourcesForCluster exampleConstants "abc"
          [("custodian", "true")] true fakeThree).state).result =
      (fakeEngine.DeleteResourcesForCluster exampleConstants "abc"
        [("custodian", "true")] true fakeThree).result) :=
  ⟨Fake_readsObserve, by decide,
    (dryRun_twice_same_items fakeEngine exampleConstants "abc" [("custodian", "true")]
      fakeThree Fake_readsObserve).2.1⟩

/-- C14. When a run with `dryRun = false` returns items, every item has status
`InProgress`, for the instances that were deleted and for those found already deleting
alike: the items are those of the instances to delete, in order, each in status
`InProgress`, so none is `Empty`, `DryRun`, `Skipped` or `Complete`. -/
theorem returned_items_in_progress {σ : Type} (r : RDSEngine σ) (c : Constants)
    (clusterId : String) (tags : List (String × String)) (s : σ) (items : List ReportItem)
    (hreturned : (r.DeleteResourcesForCluster c clusterId tags false s).result =
      Outcome.returned (items, none)) :
    items = (r.databasesToDelete c clusterId tags s).map
      (fun db => reportItemFor db ActionStatus.InProgress) ∧
    ∀ item ∈ items, item.ActionStatus = ActionStatus.InProgress ∧
      item.ActionStatus ≠ ActionStatus.Empty ∧ item.ActionStatus ≠ ActionStatus.DryRun ∧
      item.ActionStatus ≠ ActionStatus.Skipped ∧
      item.ActionStatus ≠ ActionStatus.Complete := by
  have hitems := engine_items r c clusterId tags false s items hreturned
  refine ⟨hitems, ?_⟩
  intro item hitem
  rw [hitems] at hitem
  obtain ⟨db, _, rfl⟩ := List.mem_map.mp hitem
  refine ⟨rfl, ?_, ?_, ?_, ?_⟩ <;> simp [reportItemFor, finalStatus]

/-- C14 on the test double with three databases: the deleted database and the one found
already deleting are both reported in status `InProgress`. -/
theorem returned_items_in_progress_witness :
    ((fakeEngine.DeleteResourcesForCluster exampleConstants "abc"
        [("custodian", "true")] false fakeThree).result =
      Outcome.returned ([reportItemFor dbOne ActionStatus.InProgress,
        reportItemFor dbThree ActionStatus.InProgress], none)) ∧
    (StringValue dbOne.DBInstanceStatus ≠ exampleConstants.statusDeleting ∧
      StringValue dbThree.DBInstanceStatus = exampleConstants.statusDeleting) ∧
    (∀ item ∈ [reportItemFor dbOne ActionStatus.InProgress,
        reportItemFor dbThree ActionStatus.InProgress],
      item.ActionStatus = ActionStatus.InProgress ∧
      item.ActionStatus ≠ ActionStatus.Empty ∧ item.ActionStatus ≠ ActionStatus.DryRun ∧
      item.ActionStatus ≠ ActionStatus.Skipped ∧
      item.ActionStatus ≠ ActionStatus.Complete) :=
  ⟨by decide, by decide,
    (returned_items_in_progress fakeEngine exampleConstants "abc" [("custodian", "true")]
      fakeThree
      [reportItemFor dbOne ActionStatus.InProgress,
        reportItemFor dbThree ActionStatus.InProgress] (by decide)).2⟩

/-- C17. The engine works in two phases. In every run each call that is not mutating
(the listing, the tag lookups) stands before each mutating call (`ModifyDBInstance`,
`DeleteDBInstance`) in the trace. So when the listing or a tag lookup comes back with an
error, the run ends there with that error and no mutating call was issued; and when in
addition the listing and the tag lookup leave the provider state as it is, the state is
the one the run started in. -/
theorem reads_precede_mutations {σ : Type} (r : RDSEngine σ) (c : Constants)
    (clusterId : String) (tags : List (String × String)) (dryRun : Bool) (s : σ) :
    (∀ (i j : Nat) first second,
      (r.DeleteResourcesForCluster c clusterId tags dryRun s).trace[i]? = some first →
      (r.DeleteResourcesForCluster c clusterId tags dryRun s).trace[j]? = some second →
      first.isMutating = false → second.isMutating = true → i < j) ∧
    (∀ (j : Nat) call err,
      (r.DeleteResourcesForCluster c clusterId tags dryRun s).trace[j]? = some call →
      call.isMutating = false → call.error = some err →
      (∃ msg, (r.DeleteResourcesForCluster c clusterId tags dryRun s).result =
        Outcome.returned ([], some (WrapLog err msg))) ∧
      (∀ other ∈ (r.DeleteResourcesForCluster c clusterId tags dryRun s).trace,
        other.isMutating = false) ∧
      (ReadsObserve r.rdsClient →
        (r.DeleteResourcesForCluster c clusterId tags dryRun s).state = s)) := by
  obtain ⟨reads, mutations, htrace, hreads, hmutations⟩ :=
    engine_two_phase r c clusterId tags dryRun s
  have hsplit : ∀ (k : Nat) call,
      (r.DeleteResourcesForCluster c clusterId tags dryRun s).trace[k]? = some call →
      (call.isMutating = false → k < reads.length) ∧
      (call.isMutating = true → reads.length ≤ k) := by
    intro k call hk
    rw [htrace] at hk
    by_cases hlt : k < reads.length
    · rw [List.getElem?_append_left hlt] at hk
      have := hreads call (List.getElem?_mem hk)
      exact ⟨fun _ => hlt, fun h => (by rw [this] at h; cases h)⟩
    · rw [List.getElem?_append_right (Nat.le_of_not_lt hlt)] at hk
      have := hmutations call (List.getElem?_mem hk)
      exact ⟨fun h => (by rw [this] at h; cases h), fun _ => Nat.le_of_not_lt hlt⟩
  refine ⟨?_, ?_⟩
  · intro i j first second hi hj hfirst hsecond
    exact Nat.lt_of_lt_of_le ((hsplit i first hi).1 hfirst) ((hsplit j second hj).2 hsecond)
  · intro j call err hj hread herr
    obtain ⟨hlast, hmsg⟩ := engine_failed_call r c clusterId tags dryRun s j call err hj herr
    have honly : ∀ other ∈ (r.DeleteResourcesForCluster c clusterId tags dryRun s).trace,
        other.isMutating = false := by
      have hjlt := (hsplit j call hj).1 hread
      have hnone : mutations = [] := by
        apply List.eq_nil_of_length_eq_zero
        rw [htrace, List.length_append] at hlast
        omega
      intro other hother
      rw [htrace, hnone, List.append_nil] at hother
      exact hreads other hother
    exact ⟨hmsg, honly,
      fun hobserve => engine_state_of_reads_only r c clusterId tags dryRun s hobserve honly⟩

/-- C17 on two test doubles. In the run that deletes, the reads stand before the
modification and the deletion. In the run whose second tag lookup is refused, no call is
mutating and the provider state is the one the run started in. -/
theorem reads_precede_mutations_witness :
    ((fakeEngine.DeleteResourcesForCluster exampleConstants "abc"
        [("custodian", "true")] false fakeThree).trace.map Call.isMutating =
      [false, false, false, false, true, true]) ∧
    ((fakeEngine.DeleteResourcesForCluster exampleConstants "abc"
        [("custodian", "true")] false fakeThreeDenied).trace.map Call.isMutating =
      [false, false, false]) ∧
    ((fakeEngine.DeleteResourcesForCluster exampleConstants "abc"
        [("custodian", "true")] false fakeThreeDenied).state = fakeThreeDenied) ∧
    ((∃ msg, (fakeEngine.DeleteResourcesForCluster exampleConstants "abc"
        [("custodian", "true")] false fakeThreeDenied).result =
        Outcome.returned ([], some (WrapLog (Error.raised "AccessDenied") msg))) ∧
      (∀ other ∈ (fakeEngine.DeleteResourcesForCluster exampleConstants "abc"
        [("custodian", "true")] false fakeThreeDenied).trace, other.isMutating = false) ∧
      (ReadsObserve fakeEngine.rdsClient →
        (fakeEngine.DeleteResourcesForCluster exampleConstants "abc"
          [("custodian", "true")] false fakeThreeDenied).state = fakeThreeDenied)) :=
  ⟨by decide, by decide, by decide,
    (reads_precede_mutations fakeEngine exampleConstants "abc" [("custodian", "true")]
      false fakeThreeDenied).2 2
      (Call.ListTagsForResource ⟨dbTwo.DBInstanceArn⟩
        (none, some (Error.raised "AccessDenied")))
      (Error.raised "AccessDenied") (by decide) rfl rfl⟩

/-! ## The order of the extra tags -/

theorem findTag_nil_of_panic (key value : String) (tagList : List (Option Tag))
    (h : findTag key value tagList = Outcome.panic) : none ∈ tagList := by
  induction tagList with
  | nil => simp [findTag] at h
  | cons entry rest ih =>
    cases entry with
    | none => exact List.mem_cons_self _ _
    | some tag =>
      simp only [findTag] at h
      split at h
      · cases h
      · exact List.mem_cons_of_mem _ (ih h)

theorem findTag_no_nil_of_absent (key value : String) (tagList : List (Option Tag))
    (h : findTag key value tagList = Outcome.returned none) : none ∉ tagList := by
  induction tagList with
  | nil => simp
  | cons entry rest ih =>
    cases entry with
    | none => simp [findTag] at h
    | some tag =>
      simp only [findTag] at h
      split at h
      · cases h
      · simp only [List.mem_cons, not_or]
        exact ⟨by simp, ih h⟩

theorem extraTagsMatch_swap (tagList : List (Option Tag)) (a b : String × String)
    (rest : List (String × String)) :
    extraTagsMatch tagList (a :: b :: rest) = extraTagsMatch tagList (b :: a :: rest) := by
  obtain ⟨ka, va⟩ := a
  obtain ⟨kb, vb⟩ := b
  simp only [extraTagsMatch]
  cases ha : findTag ka va tagList with
  | panic =>
    cases hb : findTag kb vb tagList with
    | panic => rfl
    | returned fb =>
      cases fb with
      | none =>
        exact absurd (findTag_nil_of_panic ka va tagList ha)
          (findTag_no_nil_of_absent kb vb tagList hb)
      | some tb => rfl
  | returned fa =>
    cases fa with
    | none =>
      cases hb : findTag kb vb tagList with
      | panic =>
        exact absurd (findTag_nil_of_panic kb vb tagList hb)
          (findTag_no_nil_of_absent ka va tagList ha)
      | returned fb => cases fb <;> rfl
    | some ta =>
      cases hb : findTag kb vb tagList with
      | panic => rfl
      | returned fb => cases fb <;> rfl

theorem extraTagsMatch_perm (tagList : List (Option Tag)) (tags tags' : List (String × String))
    (hperm : tags.Perm tags') :
    extraTagsMatch tagList tags = extraTagsMatch tagList tags' := by
  induction hperm with
  | nil => rfl
  | cons pair _ ih =>
    obtain ⟨k, v⟩ := pair
    simp only [extraTagsMatch, ih]
  | swap a b rest => exact extraTagsMatch_swap tagList b a rest
  | trans _ _ ih1 ih2 => exact ih1.trans ih2

theorem filterStep_perm {σ : Type} (api : RDSAPI σ) (c : Constants) (clusterId : String)
    (tags tags' : List (String × String)) (hperm : tags.Perm tags')
    (dbInstance : Option DBInstance) (s : σ) :
    filterStep api c clusterId tags dbInstance s =
      filterStep api c clusterId tags' dbInstance s := by
  unfold filterStep
  simp only [fun tagList => extraTagsMatch_perm tagList tags tags' hperm]

theorem filterLoop_perm {σ : Type} (api : RDSAPI σ) (c : Constants) (clusterId : String)
    (tags tags' : List (String × String)) (hperm : tags.Perm tags')
    (dbs : List (Option DBInstance)) (s : σ) :
    filterLoop api c clusterId tags dbs s = filterLoop api c clusterId tags' dbs s := by
  induction dbs generalizing s with
  | nil => rfl
  | cons dbInstance rest ih =>
    rw [filterLoop, filterLoop]
    simp only [filterStep_perm api c clusterId tags tags' hperm, ih]

theorem engine_perm {σ : Type} (r : RDSEngine σ) (c : Constants) (clusterId : String)
    (tags tags' : List (String × String)) (hperm : tags.Perm tags') (dryRun : Bool) (s : σ) :
    r.DeleteResourcesForCluster c clusterId tags dryRun s =
      r.DeleteResourcesForCluster c clusterId tags' dryRun s := by
  unfold RDSEngine.DeleteResourcesForCluster
  simp only [filterLoop_perm r.rdsClient c clusterId tags tags' hperm]

/-- C15. The keep-or-discard decision for a listed instance does not depend on the order
in which the extra tags are ranged over: for two collections holding the same pairs in
different orders the loop over the extra tags gives the same answer on every tag list,
the pass of the first loop for an instance is the same, and so is the whole run of the
engine. The instance is kept exactly when `findTag` finds the cluster-identity tag and
every extra pair, so with no extra tags every instance carrying the cluster-identity tag
is kept. -/
theorem extra_tags_order_irrelevant {σ : Type} (r : RDSEngine σ) (c : Constants)
    (clusterId : String) (tags tags' : List (String × String))
    (hperm : tags.Perm tags') :
    (∀ tagList, extraTagsMatch tagList tags = extraTagsMatch tagList tags') ∧
    (∀ dbInstance s, filterStep r.rdsClient c clusterId tags dbInstance s =
      filterStep r.rdsClient c clusterId tags' dbInstance s) ∧
    (∀ dryRun s, r.DeleteResourcesForCluster c clusterId tags dryRun s =
      r.DeleteResourcesForCluster c clusterId tags' dryRun s) ∧
    (∀ tagList, extraTagsMatch tagList tags = Outcome.returned true ↔
      ∀ pair ∈ tags, ∃ tag, findTag pair.1 pair.2 tagList = Outcome.returned (some tag)) ∧
    (∀ db s output,
      (r.rdsClient.ListTagsForResource s ⟨db.DBInstanceArn⟩).1 = (some output, none) →
      ((filterStep r.rdsClient c clusterId tags (some db) s).result = Flow.next (some db) ↔
        (∃ tag, findTag c.tagKeyClusterId clusterId output.TagList =
          Outcome.returned (some tag)) ∧
        ∀ pair ∈ tags, ∃ tag,
          findTag pair.1 pair.2 output.TagList = Outcome.returned (some tag))) ∧
    (∀ db s output tag,
      (r.rdsClient.ListTagsForResource s ⟨db.DBInstanceArn⟩).1 = (some output, none) →
      findTag c.tagKeyClusterId clusterId output.TagList = Outcome.returned (some tag) →
      (filterStep r.rdsClient c clusterId [] (some db) s).result = Flow.next (some db)) := by
  refine ⟨fun tagList => extraTagsMatch_perm tagList tags tags' hperm,
    fun dbInstance s => filterStep_perm r.rdsClient c clusterId tags tags' hperm dbInstance s,
    fun dryRun s => engine_perm r c clusterId tags tags' hperm dryRun s,
    fun tagList => extraTagsMatch_true_iff tagList tags,
    fun db s output h => filterStep_kept_iff r.rdsClient c clusterId tags db s output h, ?_⟩
  intro db s output tag h hfound
  rw [filterStep_kept_iff r.rdsClient c clusterId [] db s output h]
  exact ⟨⟨tag, hfound⟩, fun pair hpair => by simp at hpair⟩

/-- C15 on the test double with three databases, with two extra tags given in both
orders: the two runs are the same, and only the first database carries both pairs. -/
theorem extra_tags_order_irrelevant_witness :
    List.Perm [("custodian", "true"), ("integreatly.org/clusterID", "abc")]
      [("integreatly.org/clusterID", "abc"), ("custodian", "true")] ∧
    (∀ dryRun s, fakeEngine.DeleteResourcesForCluster exampleConstants "abc"
        [("custodian", "true"), ("integreatly.org/clusterID", "abc")] dryRun s =
      fakeEngine.DeleteResourcesForCluster exampleConstants "abc"
        [("integreatly.org/clusterID", "abc"), ("custodian", "true")] dryRun s) ∧
    (fakeEngine.databasesToDelete exampleConstants "abc"
        [("custodian", "true"), ("integreatly.org/clusterID", "abc")] fakeThree =
      [dbOne, dbThree]) ∧
    (fakeEngine.databasesToDelete exampleConstants "abc" [] fakeThree =
      [dbOne, dbTwo, dbThree]) ∧
    (fakeEngine.databasesToDelete exampleConstants "abc" [("custodian", "false")] fakeThree =
      []) :=
  ⟨List.Perm.swap _ _ _,
    (extra_tags_order_irrelevant fakeEngine exampleConstants "abc"
      [("custodian", "true"), ("integreatly.org/clusterID", "abc")]
      [("integreatly.org/clusterID", "abc"), ("custodian", "true")]
      (List.Perm.swap _ _ _)).2.2.1,
    by decide, by decide, by decide⟩

/-! ## The listing -/

theorem deleteStep_delete_target {σ : Type} (api : RDSAPI σ) (c : Constants) (dryRun : Bool)
    (db : DBInstance) (s : σ) (input : DeleteDBInstanceInput)
    (response : Option DeleteDBInstanceOutput × Option Error)
    (h : Call.DeleteDBInstance input response ∈ (deleteStep api c dryRun db s).trace) :
    (BoolValue db.DeletionProtection = false →
      input.DBInstanceIdentifier = db.DBInstanceIdentifier) ∧
    (BoolValue db.DeletionProtection = true →
      ∃ modified,
        Call.ModifyDBInstance ⟨db.DBInstanceIdentifier, some false⟩
          (some ⟨some modified⟩, none) ∈ (deleteStep api c dryRun db s).trace ∧
        input.DBInstanceIdentifier = modified.DBInstanceIdentifier) := by
  cases dryRun with
  | true => rw [deleteStep_dryRun] at h; simp at h
  | false =>
    by_cases hdel : StringValue db.DBInstanceStatus = c.statusDeleting
    · rw [deleteStep_deleting api c db s hdel] at h; simp at h
    · cases hprot : BoolValue db.DeletionProtection with
      | false =>
        rw [deleteStep_unprotected api c db s hdel hprot] at h
        simp only [List.mem_singleton, Call.DeleteDBInstance.injEq] at h
        exact ⟨fun _ => (by rw [h.1]), fun hp => Bool.noConfusion hp⟩
      | true =>
        refine ⟨fun hp => Bool.noConfusion hp, fun _ => ?_⟩
        rw [deleteStep_protected api c db s hdel hprot] at h ⊢
        generalize (api.ModifyDBInstance s ⟨db.DBInstanceIdentifier, some false⟩) = resp
          at h ⊢
        rcases resp with ⟨⟨output, e⟩, s1⟩
        rcases output with _ | ⟨⟨_ | current⟩⟩ <;> cases e <;> simp only at h ⊢
        all_goals first
          | (simp only [List.mem_singleton] at h
             exact Call.noConfusion h)
          | skip
        simp only [List.mem_cons, List.mem_singleton, Call.DeleteDBInstance.injEq,
          List.not_mem_nil, or_false] at h
        rcases h with h | h
        · exact Call.noConfusion h
        · exact ⟨current, List.mem_cons_self _ _, by rw [h.1]⟩

/-- C16 fails on a provider whose `ModifyDBInstance` returns an instance with another
identifier: the listing holds the database `db-one` only, and the run issues a
`DeleteDBInstance` call for `db-stray`, which no listed instance has as identifier. -/
theorem delete_follows_modify_output :
    (strayScript.api.DescribeDBInstances () ⟨none⟩).1 = (some ⟨[some dbOne], none⟩, none) ∧
    dbOne.DBInstanceIdentifier = some "db-one" ∧
    ((⟨strayScript.api⟩ : RDSEngine Unit).DeleteResourcesForCluster exampleConstants "abc"
        [("custodian", "true")] false ()).trace.filterMap
        (fun call => match call with
          | Call.ModifyDBInstance input _ => some (false, input.DBInstanceIdentifier)
          | Call.DeleteDBInstance input _ => some (true, input.DBInstanceIdentifier)
          | _ => none) =
      [(false, some "db-one"), (true, some "db-stray")] :=
  ⟨rfl, rfl, by decide⟩

/-- C16, as the code has it. The instances to delete were listed and passed both
filters. A `DeleteDBInstance` call is issued only in the pass of the second loop for
an instance to delete; it targets the identifier of that instance when its protection
flag is not set, and the identifier carried by the instance that the `ModifyDBInstance` call
for it returned when the flag is set. So when every modification returns the instance
it was asked to modify, every deletion targets the identifier of an instance that was
listed and passed both filters. -/
theorem delete_targets {σ : Type} (r : RDSEngine σ) (c : Constants) (clusterId : String)
    (tags : List (String × String)) (dryRun : Bool) (s : σ) :
    (∀ db ∈ r.databasesToDelete c clusterId tags s,
      ∃ listing, (r.rdsClient.DescribeDBInstances s ⟨none⟩).1 = (some listing, none) ∧
        some db ∈ listing.DBInstances ∧
        ∃ before output,
          (r.rdsClient.ListTagsForResource before ⟨db.DBInstanceArn⟩).1 =
            (some output, none) ∧
          (∃ tag, findTag c.tagKeyClusterId clusterId output.TagList =
            Outcome.returned (some tag)) ∧
          ∀ pair ∈ tags, ∃ tag,
            findTag pair.1 pair.2 output.TagList = Outcome.returned (some tag)) ∧
    (∃ reads steps, RunsSteps r c clusterId tags dryRun s reads steps ∧
      ∀ (i : Nat) db step, (r.databasesToDelete c clusterId tags s)[i]? = some db →
        steps[i]? = some step →
        ∀ input response, Call.DeleteDBInstance input response ∈ step.trace →
          (BoolValue db.DeletionProtection = false →
            input.DBInstanceIdentifier = db.DBInstanceIdentifier) ∧
          (BoolValue db.DeletionProtection = true →
            ∃ modified,
              Call.ModifyDBInstance ⟨db.DBInstanceIdentifier, some false⟩
                (some ⟨some modified⟩, none) ∈ step.trace ∧
              input.DBInstanceIdentifier = modified.DBInstanceIdentifier)) ∧
    ((∀ call ∈ (r.DeleteResourcesForCluster c clusterId tags dryRun s).trace,
        call.echoes = true) →
      ∀ input response, Call.DeleteDBInstance input response ∈
          (r.DeleteResourcesForCluster c clusterId tags dryRun s).trace →
        ∃ db ∈ r.databasesToDelete c clusterId tags s,
          input.DBInstanceIdentifier = db.DBInstanceIdentifier) := by
  obtain ⟨reads, steps, hruns⟩ := engine_runsSteps r c clusterId tags dryRun s
  have hruns' := hruns
  obtain ⟨htrace, hreads, hlen, hsteps, _⟩ := hruns'
  have htarget : ∀ (i : Nat) db step, (r.databasesToDelete c clusterId tags s)[i]? = some db →
      steps[i]? = some step →
      ∀ input response, Call.DeleteDBInstance input response ∈ step.trace →
        (BoolValue db.DeletionProtection = false →
          input.DBInstanceIdentifier = db.DBInstanceIdentifier) ∧
        (BoolValue db.DeletionProtection = true →
          ∃ modified,
            Call.ModifyDBInstance ⟨db.DBInstanceIdentifier, some false⟩
              (some ⟨some modified⟩, none) ∈ step.trace ∧
            input.DBInstanceIdentifier = modified.DBInstanceIdentifier) := by
    intro i db step hdb hi input response hin
    obtain ⟨before, hbefore⟩ := hsteps i db step hdb hi
    rw [hbefore] at hin ⊢
    exact deleteStep_delete_target r.rdsClient c dryRun db before input response hin
  refine ⟨databasesToDelete_listed r c clusterId tags s, ⟨reads, steps, hruns, htarget⟩, ?_⟩
  intro hechoes input response hin
  have hin' := hin
  rw [htrace] at hin'
  rcases List.mem_append.mp hin' with h | h
  · have := hreads _ h
    simp [Call.isMutating] at this
  · obtain ⟨segment, hseg, hcall⟩ := List.mem_flatten.mp h
    obtain ⟨step, hstep, rfl⟩ := List.mem_map.mp hseg
    obtain ⟨i, hi⟩ := List.getElem?_of_mem hstep
    have hlt : i < steps.length := by
      rcases List.getElem?_eq_some.mp hi with ⟨hlt, _⟩
      exact hlt
    have hdb : (r.databasesToDelete c clusterId tags s)[i]? =
        some ((r.databasesToDelete c clusterId tags s).get
          ⟨i, Nat.lt_of_lt_of_le hlt hlen⟩) :=
      List.getElem?_eq_getElem (Nat.lt_of_lt_of_le hlt hlen)
    obtain ⟨hunprotected, hprotected⟩ := htarget i _ step hdb hi input response hcall
    refine ⟨_, List.getElem?_mem hdb, ?_⟩
    cases hprot : BoolValue ((r.databasesToDelete c clusterId tags s).get
        ⟨i, Nat.lt_of_lt_of_le hlt hlen⟩).DeletionProtection with
    | false => exact hunprotected hprot
    | true =>
      obtain ⟨modified, hmod, hid⟩ := hprotected hprot
      have hecho := hechoes _ (by
        rw [htrace]
        exact List.mem_append_right _
          (List.mem_flatten.mpr ⟨step.trace, List.mem_map.mpr ⟨step, hstep, rfl⟩, hmod⟩))
      simp only [Call.echoes, decide_eq_true_eq] at hecho
      rw [hid, hecho]

/-- C16 on the test double with three databases: every modification returns the instance
it was asked to modify, and the one deletion targets the first database, which is
one of the instances to delete. -/
theorem delete_targets_witness :
    (∀ call ∈ (fakeEngine.DeleteResourcesForCluster exampleConstants "abc"
        [("custodian", "true")] false fakeThree).trace, call.echoes = true) ∧
    (Call.DeleteDBInstance ⟨some "db-one", some true, some true⟩
        (some ⟨some ⟨some "db-one", some "arn:aws:rds:eu-west-1:1:db:db-one",
          some "cluster-one", some "deleting", some false⟩⟩, none) ∈
      (fakeEngine.DeleteResourcesForCluster exampleConstants "abc"
        [("custodian", "true")] false fakeThree).trace) ∧
    (∃ db ∈ fakeEngine.databasesToDelete exampleConstants "abc" [("custodian", "true")]
        fakeThree,
      (⟨some "db-one", some true, some true⟩ : DeleteDBInstanceInput).DBInstanceIdentifier =
        db.DBInstanceIdentifier) :=
  ⟨by decide, by decide,
    (delete_targets fakeEngine exampleConstants "abc" [("custodian", "true")] false
      fakeThree).2.2 (by decide) ⟨some "db-one", some true, some true⟩
      (some ⟨some ⟨some "db-one", some "arn:aws:rds:eu-west-1:1:db:db-one",
        some "cluster-one", some "deleting", some false⟩⟩, none) (by decide)⟩

/-! ## Nil pointers -/

end ClusterService
